import Mathlib

/-!
Verification of the vertibird VM lifecycle engine (src/vertibird.py).

This file gives a shallow embedding of the pieces of vertibird that the
claims concern: the argument compiler inside `VertiVMLive.start`, the
`__argescape` injection guard, `set_properties`, `forward_port` and its
validators, the offline transition (`__mark_offline` / `__file_cleanup`),
the state probe, and `AudioOutput.read`.  Python strings become `String`,
Python ints become `Int` (or `Nat` where the source value is a count),
exceptions become an `Except VErr` result, and the filesystem is an
explicit `String → Bool` existence map.
-/

set_option maxRecDepth 10000

/-- Decidable equality of `Except` results, for evaluating outcomes of the
embedded operations on concrete inputs. -/
instance {ε α : Type} [DecidableEq ε] [DecidableEq α] :
    DecidableEq (Except ε α) := fun a b =>
  match a, b with
  | .error e, .error f =>
    if h : e = f then .isTrue (by rw [h]) else .isFalse (by simp [h])
  | .ok x, .ok y =>
    if h : x = y then .isTrue (by rw [h]) else .isFalse (by simp [h])
  | .error _, .ok _ => .isFalse (by simp)
  | .ok _, .error _ => .isFalse (by simp)

namespace Vertibird

/-- Error taxonomy: one constructor per `Exceptions.*` class raised by the
code paths modelled here, plus `pyKeyError` for the bare `KeyError` a
Python dict lookup raises on a missing key. -/
inductive VErr where
  | invalidArgument (msg : String)
  | invalidStateChange (msg : String)
  | launchDependencyMissing (path : String)
  | invalidDriveType (msg : String)
  | invalidGenericDeviceType (msg : String)
  | limitReached (msg : String)
  | pyKeyError (key : String)
  deriving DecidableEq, Repr

/-- Deny-list of `VertiVMLive.__argescape`: the Python set
`,=!?<>~#@:;$*()[]{}&%"'\\+` (braces and the apostrophe written as hex
escapes). -/
def denyChars : List Char :=
  [',', '=', '!', '?', '<', '>', '~', '#', '@', ':', ';', '$', '*',
   '(', ')', '[', ']', '\x7b', '\x7d', '&', '%', '"', '\x27', '\\', '+']

/-- Translation of `any((c in set(...)) for c in i)` in `__argescape`. -/
def hasDeny (s : String) : Bool :=
  s.toList.any (fun c => denyChars.contains c)

/-- Characters `shlex.quote` treats as safe: ASCII word characters plus
the punctuation at-sign, percent, plus, equals, colon, comma, dot, slash
and hyphen (the complement of Python's `_find_unsafe` regex). -/
def shlexSafe (c : Char) : Bool :=
  c.isAlphanum || c = '_' || c = '@' || c = '%' || c = '+' || c = '=' ||
  c = ':' || c = ',' || c = '.' || c = '/' || c = '-'

/-- Translation of Python `shlex.quote`: empty strings and strings holding
an unsafe character are wrapped in single quotes, with every inner single
quote replaced by the five-character sequence quote-dquote-quote-dquote-quote. -/
def shlexQuote (s : String) : String :=
  if s ≠ "" ∧ s.toList.all shlexSafe then s
  else
    let body := s.toList.foldr
      (fun c acc =>
        if c = '\x27' then '\x27' :: '"' :: '\x27' :: '"' :: '\x27' :: acc
        else c :: acc) []
    String.mk ('\x27' :: (body ++ ['\x27']))

/-- Message built by `__argescape` when it rejects a string. -/
def malformedMsg (s : String) : String :=
  "Attempted to supply a malformed argument to QEMU! String was: " ++ s

/-- Translation of `VertiVMLive.__argescape`: reject strings holding any
deny-list character with `InvalidArgument`, otherwise `shlex.quote` them. -/
def argescape (s : String) : Except VErr String :=
  if hasDeny s then .error (.invalidArgument (malformedMsg s))
  else .ok (shlexQuote s)

/-- One attached drive, an element of the record field `drives`
(`{path, type}` dictionaries in the source). -/
structure Drive where
  path : String
  type : String
  deriving DecidableEq, Repr

/-- One port-forwarding rule, an element of the record field `forwarding`. -/
structure Forwarding where
  id : String
  protocol : String
  external_ip : String
  external_port : String
  internal_port : String
  deriving DecidableEq, Repr

/-- Reserved ports of a record (source dict keys vnc, monitor, audio). -/
structure Ports where
  vnc : Int
  monitor : Int
  audio : Int
  deriving DecidableEq, Repr

/-- Persisted VM record: the `VertiVM` SQLAlchemy row (the `log` column is
omitted, no modelled path reads it). -/
structure VMRecord where
  id : String
  ports : Ports
  pid : Option Int
  audiopipe : Option String
  audiothrd : Bool
  state : String
  memory : Int
  cores : Int
  cpu : String
  machine : String
  vga : String
  sound : String
  bootorder : String
  network : String
  scsi : String
  rtc : String
  floppy : Option String
  numa : Bool
  cdroms : List String
  drives : List Drive
  forwarding : List Forwarding
  deriving DecidableEq, Repr

/-- Keys of `QEMUDevices.vga`. -/
def vgaKeys : List String := ["none", "std", "cirrus", "vmware", "qxl", "virtio"]

/-- Keys of `QEMUDevices.machine`. -/
def machineKeys : List String := ["pc", "q35", "isapc"]

/-- Keys of `QEMUDevices.sound`. -/
def soundKeys : List String := ["ac97", "hda", "sb16", "gus", "adlib"]

/-- Keys of `QEMUDevices.network`. -/
def networkKeys : List String :=
  ["e1000", "e1000-82544gc", "e1000-82545em", "e1000e", "i82550", "i82551",
   "i82557a", "i82557b", "i82557c", "i82558a", "i82558b", "i82559a",
   "i82559b", "i82559c", "i82559er", "i82562", "i82801", "ne2k_isa",
   "ne2k_pci", "pcnet", "rtl8139", "tulip", "virtio-net-pci",
   "virtio-net-pci-non-transitional", "virtio-net-pci-transitional",
   "vmxnet3"]

/-- Keys of `QEMUDevices.scsi`. -/
def scsiKeys : List String :=
  ["lsi53c895a", "am53c974", "dc390", "lsi53c810", "mptsas1068", "megasas",
   "megasas-gen2", "virtio-scsi-pci", "virtio-scsi-pci-non-transitional",
   "virtio-scsi-pci-transitional"]

/-- Keys of `QEMUDevices.rtc`. -/
def rtcKeys : List String := ["utc", "localtime"]

/-- Keys of `QEMUDevices.cpu`. -/
def cpuKeys : List String :=
  ["base", "host", "max", "qemu64", "qemu32", "phenom", "pentium3",
   "pentium2", "pentium", "n270", "kvm64", "kvm32", "coreduo", "core2duo",
   "athlon", "Westmere-IBRS", "Westmere", "Snowridge", "SandyBridge",
   "SandyBridge-IBRS", "Penryn", "Opteron_G5", "Opteron_G4", "Opteron_G3",
   "Opteron_G2", "Opteron_G1", "Nehalem", "Nehalem-IBRS", "KnightsMill",
   "IvyBridge", "IvyBridge-IBRS", "Haswell", "Haswell-IBRS",
   "Haswell-noTSX", "Haswell-noTSX-IBRS", "EPYC", "EPYC-IBPB", "Dhyana",
   "Denverton", "Conroe", "Cascadelake-Server", "Cascadelake-Server-noTSX",
   "Broadwell", "Broadwell-noTSX", "Broadwell-IBRS",
   "Broadwell-noTSX-IBRS", "486"]

/-- Keys of `QEMUDevices.storage`. -/
def storageKeys : List String := ["ahci", "ide", "scsi", "virtio"]

/-- Environment of the argument compiler: `os.path.isfile`,
`os.path.abspath` and the stream of ids produced by
`__random_device_id` (the k-th generated id). -/
structure CompileEnv where
  isfile : String → Bool
  abspath : String → String
  devId : Nat → String

/-- DISK_FORMAT constant of the source. -/
def DISK_FORMAT : String := "qcow2"

/-- One `hostfwd=...` clause of the `-netdev` argument, with the four
fields of the rule escaped in source order. -/
def fwdClause (x : Forwarding) : Except VErr String := do
  let p ← argescape x.protocol
  let ip ← argescape x.external_ip
  let ep ← argescape x.external_port
  let iport ← argescape x.internal_port
  return "hostfwd=" ++ p ++ ":" ++ ip ++ ":" ++ ep ++ "-:" ++ iport

/-- Clauses for every forwarding rule, in list order. -/
def fwdClauses : List Forwarding → Except VErr (List String)
  | [] => .ok []
  | x :: xs => do
    let c ← fwdClause x
    let cs ← fwdClauses xs
    return c :: cs

/-- Value of the `-netdev` argument: `user,id=net0` followed by the
comma-joined `hostfwd` clauses (with a leading comma when any exist). -/
def netdevArg (fwd : List Forwarding) : Except VErr String := do
  let cs ← fwdClauses fwd
  return "user,id=net0" ++ (if fwd.length > 0 then "," else "") ++
    String.intercalate "," cs

/-- Audio pipe path used by the compiler; `start` always sets the field
just before compiling, so the `none` case is never reached there. -/
def pipePath (r : VMRecord) : String := r.audiopipe.getD ""

/-- Base argument vector of `start` (lines 840-907), with `__argescape`
applied to the same values in the same evaluation order as the Python
list literal. -/
def baseArgs (qemu : String) (r : VMRecord) : Except VErr (List String) := do
  let idq ← argescape r.id
  let boq ← argescape r.bootorder
  let cpuq ← argescape r.cpu
  let macq ← argescape r.machine
  let rtcq ← argescape r.rtc
  let vgaq ← argescape r.vga
  let apq ← argescape (pipePath r)
  let netq ← argescape r.network
  let ndev ← netdevArg r.forwarding
  return [qemu,
    "-uuid", idq,
    "-monitor", "telnet:127.0.0.1:" ++ toString r.ports.monitor ++ ",server,nowait",
    "-nographic",
    "-serial", "none",
    "-vnc", "127.0.0.1:" ++ toString (r.ports.vnc - 5900) ++ ",share=force-shared",
    "-m", toString r.memory ++ "B",
    "-overcommit", "mem-lock=off",
    "-boot", "order=" ++ boq ++ ",menu=on",
    "-cpu", cpuq,
    "-smp", toString r.cores,
    "-machine", "type=" ++ macq ++ ",accel=kvm",
    "-enable-kvm",
    "-sandbox", "on,obsolete=deny,elevateprivileges=deny,spawn=deny,resourcecontrol=deny",
    "-rtc", "base=" ++ rtcq ++ ",clock=host,driftfix=slew",
    "-vga", vgaq,
    "-audiodev", "wav,path=" ++ apq ++ ",id=audioout",
    "-device", netq ++ ",netdev=net0",
    "-netdev", ndev]

/-- Python dict lookup `{pc: a, q35: b}[machine]`: any other machine name
raises a KeyError. -/
def pcq35 (machine a b : String) : Except VErr String :=
  if machine = "pc" then .ok a
  else if machine = "q35" then .ok b
  else .error (.pyKeyError machine)

/-- Machine-type block of `start` (lines 909-952): extra devices for
standard machines, the four ISA compatibility checks for `isapc`. -/
def machineDevices (r : VMRecord) : Except VErr (List String) :=
  if r.machine ≠ "isapc" then do
    let usb ← pcq35 r.machine "piix3-usb-uhci" "ich9-usb-uhci1"
    let scsiq ← argescape r.scsi
    let ahci ← pcq35 r.machine "ahci" "ich9-ahci"
    return ["-device", usb ++ ",id=usb",
      "-device", "usb-tablet,id=input0",
      "-device", scsiq ++ ",id=scsi",
      "-device", ahci ++ ",id=ahci",
      "-object", "rng-random,id=rng0,filename=/dev/urandom",
      "-device", "virtio-rng-pci,rng=rng0"]
  else if ¬ (r.sound ∈ ["adlib", "sb16", "gus"]) then
    .error (.invalidGenericDeviceType "ISA-Only PC requires an ISA-specific audio device")
  else if ¬ (r.network ∈ ["ne2k_isa"]) then
    .error (.invalidGenericDeviceType "ISA-Only PC requires an ISA-specific NIC device")
  else if ¬ (r.vga ∈ ["vga", "cirrus"]) then
    .error (.invalidGenericDeviceType "ISA-Only PC requires an ISA-specific VGA device")
  else if r.cores > 1 then
    .error (.invalidGenericDeviceType "ISA-Only PC can only support 1 core")
  else .ok []

/-- Floppy block of `start` (lines 954-963): an absent file fails before
the path is escaped. -/
def floppyArgs (env : CompileEnv) (r : VMRecord) : Except VErr (List String) :=
  match r.floppy with
  | none => .ok []
  | some f =>
    if ¬ env.isfile f then .error (.launchDependencyMissing f)
    else do
      let fq ← argescape f
      return ["-fda", fq]

/-- NUMA flag block of `start` (lines 965-966). -/
def numaArgs (r : VMRecord) : List String :=
  if r.numa then ["-numa"] else []

/-- Sound block of `start` (lines 968-992): the AC97/ISA family, the HDA
family keyed on the machine type, otherwise an invalid device type. -/
def soundArgs (r : VMRecord) : Except VErr (List String) :=
  if r.sound ∈ ["ac97", "adlib", "sb16", "gus"] then
    .ok ["-device",
      (if r.sound = "ac97" then "AC97" else r.sound) ++ ",audiodev=audioout"]
  else if r.sound = "hda" then do
    let hd ← pcq35 r.machine "intel-hda" "ich9-intel-hda"
    return ["-device", hd ++ ",id=hda",
      "-device", "hda-output,id=hda-codec,audiodev=audioout"]
  else .error (.invalidGenericDeviceType "Audio device type is invalid!")

/-- CD-ROM loop of `start` (lines 994-1014): each existing image is
attached to IDE unit `strdevices` which then increments; a missing image
fails the compile.  Returns the arguments and the final unit counter. -/
def cdromArgs (env : CompileEnv) : List String → Nat → Nat →
    Except VErr (List String × Nat)
  | [], _, strdevices => .ok ([], strdevices)
  | c :: cs, devIdx, strdevices =>
    if env.isfile c then do
      let iid := env.devId devIdx
      let pq ← argescape (env.abspath c)
      let rest ← cdromArgs env cs (devIdx + 1) (strdevices + 1)
      return (["-drive", "id=" ++ iid ++ ",file=" ++ pq ++ ",if=none,media=cdrom",
        "-device", "ide-cd,drive=" ++ iid ++ ",bus=ide.0,unit=" ++ toString strdevices]
        ++ rest.1, rest.2)
    else .error (.launchDependencyMissing c)

/-- Drive loop of `start` (lines 1016-1072): IDE drives occupy a unit and
increment the shared counter, AHCI and SCSI drives address their bus
without a unit, VirtIO drives attach directly; on `isapc` only IDE is
allowed; a missing image or unknown type fails the compile. -/
def driveArgs (env : CompileEnv) (machine : String) : List Drive → Nat → Nat →
    Except VErr (List String × Nat)
  | [], _, strdevices => .ok ([], strdevices)
  | d :: ds, devIdx, strdevices =>
    let iid := env.devId devIdx
    if env.isfile d.path then
      if machine = "isapc" ∧ d.type ≠ "ide" then
        .error (.invalidGenericDeviceType "Only IDE devices are supported on ISA-Only PC")
      else if d.type ∈ ["ahci", "ide", "scsi"] then do
        let pq ← argescape (env.abspath d.path)
        let tq ← argescape d.type
        let devstr :=
          if d.type = "ahci" then "ide-hd,drive=" ++ iid ++ ",bus=" ++ tq ++ ".0"
          else if d.type = "ide" then
            "ide-hd,drive=" ++ iid ++ ",bus=" ++ tq ++ ".0,unit=" ++ toString strdevices
          else "scsi-hd,drive=" ++ iid ++ ",bus=" ++ tq ++ ".0"
        let rest ← driveArgs env machine ds (devIdx + 1)
          (strdevices + (if d.type = "ide" then 1 else 0))
        return (["-drive", "id=" ++ iid ++ ",file=" ++ pq ++ ",if=none,format=" ++ DISK_FORMAT,
          "-device", devstr] ++ rest.1, rest.2)
      else if d.type = "virtio" then do
        let pq ← argescape (env.abspath d.path)
        let rest ← driveArgs env machine ds (devIdx + 1) strdevices
        return (["-drive", "id=" ++ iid ++ ",file=" ++ pq ++ ",if=virtio,format=" ++ DISK_FORMAT]
          ++ rest.1, rest.2)
      else .error (.invalidGenericDeviceType "Drive type must be virtio, scsi, ahci or ide.")
    else .error (.launchDependencyMissing d.path)

/-- Argument compiler of `VertiVMLive.start` (lines 840-1077): the stages
in source order, ending with the IDE unit cap check on the final counter. -/
def compile (qemu : String) (env : CompileEnv) (r : VMRecord) :
    Except VErr (List String) := do
  let base ← baseArgs qemu r
  let mdev ← machineDevices r
  let flop ← floppyArgs env r
  let snd ← soundArgs r
  let cds ← cdromArgs env r.cdroms 0 0
  let drvs ← driveArgs env r.machine r.drives r.cdroms.length cds.2
  if drvs.2 > 2 then
    .error (.limitReached "IDE only supports a maximum of 2 units.")
  else
    return base ++ mdev ++ flop ++ numaArgs r ++ snd ++ cds.1 ++ drvs.1

/-- AUDIO_BLOCK_SIZE constant of the source. -/
def AUDIO_BLOCK_SIZE : Nat := 4096

/-- Bytes of the BLANK_WAV_HEADER constant (44 bytes: RIFF chunk with
zeroed size, WAVE id, fmt section for 16-bit stereo 44100 Hz PCM, data
subchunk with zeroed length). -/
def BLANK_WAV_HEADER : List Nat :=
  [82, 73, 70, 70, 0, 0, 0, 0, 87, 65, 86, 69,
   102, 109, 116, 32, 16, 0, 0, 0, 1, 0, 2, 0,
   68, 172, 0, 0, 16, 177, 2, 0, 4, 0, 16, 0,
   100, 97, 116, 97, 0, 0, 0, 0]

/-- Little-endian 4-byte encoding, as `int.to_bytes(4, 'little')`. -/
def le4 (n : Nat) : List Nat :=
  [n % 256, n / 256 % 256, n / 65536 % 256, n / 16777216 % 256]

/-- Slice assignment `l[start:start+len(v)] = v` for an in-bounds write. -/
def setRange (l : List Nat) (start : Nat) (v : List Nat) : List Nat :=
  l.take start ++ v ++ l.drop (start + v.length)

/-- First step of `AudioOutput.read` (lines 497-505): a zero bytearray of
AUDIO_BLOCK_SIZE bytes with the popped chunk, if any, overlaid at the
front (`ret[:len(chunk)] = chunk`). -/
def audioPad (buf : List (List Nat)) : List Nat :=
  match buf with
  | [] => List.replicate AUDIO_BLOCK_SIZE 0
  | chunk :: _ => chunk ++ List.replicate (AUDIO_BLOCK_SIZE - chunk.length) 0

/-- Second step of `AudioOutput.read` (lines 507-512): strip a leading
RIFF/WAVE header when the bytes carry one. -/
def audioStrip (ret : List Nat) : List Nat :=
  if ret.take 4 = [82, 73, 70, 70] ∧ (ret.drop 8).take 4 = [87, 65, 86, 69]
  then ret.drop 44 else ret

/-- Third step of `AudioOutput.read` (lines 514-526): BLANK_WAV_HEADER
with the RIFF size field set to total length minus 8 and the data length
field set to the payload length `n`. -/
def audioHeader (n : Nat) : List Nat :=
  setRange (setRange BLANK_WAV_HEADER 4 (le4 ((BLANK_WAV_HEADER.length + n) - 8)))
    40 (le4 n)

/-- Translation of `AudioOutput.read` acting on the ring buffer (a deque
of byte chunks): overlay the popped chunk on a zero block, strip a
source-supplied RIFF header, and prepend the freshly synthesized header. -/
def audioRead (buf : List (List Nat)) : List Nat :=
  audioHeader (audioStrip (audioPad buf)).length ++ audioStrip (audioPad buf)

/-- One bit step of the reflected CRC-32 used by `zlib.crc32`
(polynomial 0xEDB88320). -/
def crcStep (c : Nat) : Nat :=
  if c % 2 = 1 then (c / 2) ^^^ 0xEDB88320 else c / 2

/-- Iterate `crcStep`. -/
def crcSteps : Nat → Nat → Nat
  | 0, c => c
  | n + 1, c => crcSteps n (crcStep c)

/-- Fold one byte into the running CRC. -/
def crcByte (c b : Nat) : Nat := crcSteps 8 (c ^^^ b % 256)

/-- Accumulate bytes. -/
def crc32Aux : List Nat → Nat → Nat
  | [], c => c
  | b :: bs, c => crc32Aux bs (crcByte c b)

/-- Model of `zlib.crc32` on a byte list. -/
def crc32 (bs : List Nat) : Nat := crc32Aux bs 0xFFFFFFFF ^^^ 0xFFFFFFFF

/-- Bytes of an ASCII string, as `str.encode()` for the ASCII strings that
appear in forwarding fingerprints. -/
def strBytes (s : String) : List Nat := s.toList.map Char.toNat

/-- Dynamic Python value reaching `forward_port` as a port argument: an
int or a string (floats always carry a dot in `str` form and are rejected
by `__validate_port` before any numeric use). -/
inductive PyVal where
  | vint (n : Int)
  | vstr (s : String)
  deriving DecidableEq, Repr

/-- Python `str()` of such a value. -/
def pyStr : PyVal → String
  | .vint n => toString n
  | .vstr s => s

/-- Python `int()` of such a value: identity on ints, signed decimal parse
on strings (underscore and whitespace forms are not modelled). -/
def pyToInt : PyVal → Option Int
  | .vint n => some n
  | .vstr s =>
    let core := if s.startsWith "-" || s.startsWith "+" then s.drop 1 else s
    if core ≠ "" ∧ core.toList.all Char.isDigit then
      some (if s.startsWith "-" then -(core.toNat!) else (core.toNat! : Int))
    else none

/-- Translation of `VertiVMLive.__validate_port`: reject any value whose
`str` form holds a dot, then any value `int` fails on, then anything
outside 1..65535. -/
def validate_port (i : PyVal) : Bool :=
  if (pyStr i).toList.contains '.' then false
  else
    match pyToInt i with
    | none => false
    | some n => if n > 65535 then false else if n < 1 then false else true

/-- Splitting of a character list on a separator, as Python `str.split`
with a one-character separator. -/
def splitOnChar (sep : Char) : List Char → List (List Char)
  | [] => [[]]
  | c :: cs =>
    let r := splitOnChar sep cs
    if c = sep then [] :: r
    else
      match r with
      | [] => [[c]]
      | g :: gs => (c :: g) :: gs

/-- Decimal value of a digit list. -/
def digitsVal (l : List Char) : Nat :=
  l.foldl (fun a c => a * 10 + (c.toNat - 48)) 0

/-- Validity of one dotted-quad octet per the stdlib IPv4 parser: one to
three digits, no leading zero, value at most 255.  Modelled from the spec:
the source delegates to `ipaddress.ip_address`, which is outside this
repository. -/
def ipv4Octet (l : List Char) : Bool :=
  l ≠ [] ∧ l.length ≤ 3 ∧ l.all Char.isDigit ∧
  (l.length = 1 ∨ l.head? ≠ some '0') ∧ digitsVal l ≤ 255

/-- IPv4 literal: exactly four valid octets joined by dots.  Modelled from
the spec: stands in for `ipaddress.IPv4Address` acceptance. -/
def isIPv4 (s : String) : Bool :=
  let parts := splitOnChar '.' s.toList
  parts.length = 4 ∧ parts.all ipv4Octet

/-- Hexadecimal group of an IPv6 literal: one to four hex digits. -/
def ipv6Group (l : List Char) : Bool :=
  l ≠ [] ∧ l.length ≤ 4 ∧ l.all (fun c => c.isDigit ∨
    ('a' ≤ c ∧ c ≤ 'f') ∨ ('A' ≤ c ∧ c ≤ 'F'))

/-- Colon-separated group list, where the final group may be an embedded
IPv4 literal counting as two groups. -/
def ipv6Groups (l : List Char) : Option Nat :=
  let gs := splitOnChar ':' l
  match gs.getLast? with
  | none => none
  | some last =>
    if last.contains '.' then
      if isIPv4 (String.mk last) ∧ gs.dropLast.all ipv6Group then
        some (gs.length + 1)
      else none
    else if gs.all ipv6Group then some gs.length else none

/-- Split at the first `::`, returning the halves, when present. -/
def breakDoubleColon : List Char → Option (List Char × List Char)
  | [] => none
  | ':' :: ':' :: rest => some ([], rest)
  | c :: rest => (breakDoubleColon rest).map (fun p => (c :: p.1, p.2))

/-- IPv6 literal: eight groups, or a single `::` compression standing for
at least one zero group (the sides then total at most seven groups).
Modelled from the spec: stands in for `ipaddress.IPv6Address` acceptance;
scope-id suffixes are not modelled. -/
def isIPv6 (s : String) : Bool :=
  match breakDoubleColon s.toList with
  | none =>
    match ipv6Groups s.toList with
    | some n => n = 8
    | none => false
  | some (l, r) =>
    if (breakDoubleColon r).isSome then false
    else
      let ln := if l = [] then some 0 else ipv6Groups l
      let rn := if r = [] then some 0 else ipv6Groups r
      match ln, rn with
      | some a, some b => a + b ≤ 7
      | _, _ => false

/-- Translation of `VertiVMLive.__validate_ip`: succeed exactly when
`ipaddress.ip_address` accepts the literal. -/
def validate_ip (s : String) : Bool := isIPv4 s ∨ isIPv6 s

/-- Lowercasing as `str.lower()` on the ASCII strings reaching
`forward_port` protocol arguments. -/
def pyLower (s : String) : String :=
  String.mk (s.toList.map (fun c =>
    if 'A' ≤ c ∧ c ≤ 'Z' then Char.ofNat (c.toNat + 32) else c))

/-- Fingerprint of `forward_port`: `str(zlib.crc32(...))` of the
dash-joined protocol, external ip and stringified ports. -/
def fwdId (protocol external_ip : String) (external_port internal_port : PyVal) : String :=
  toString (crc32 (strBytes (String.intercalate "-"
    [protocol, external_ip, pyStr external_port, pyStr internal_port])))

/-- Translation of `VertiVMLive.forward_port` (lines 1212-1261): offline
guard, lowercase the protocol, the four validations in source order, then
append the rule unless its fingerprint is already present.  Returns the
updated record and the fingerprint. -/
def forwardPort (r : VMRecord) (external_port internal_port : PyVal)
    (protocol : String := "tcp") (external_ip : String := "0.0.0.0") :
    Except VErr (VMRecord × String) :=
  if r.state ≠ "offline" then
    .error (.invalidStateChange "Function requires VM to be offline")
  else
    let protocol := pyLower protocol
    if ¬ validate_ip external_ip then .error (.invalidArgument "Invalid external IP")
    else if ¬ validate_port external_port then .error (.invalidArgument "Invalid external port")
    else if ¬ validate_port internal_port then .error (.invalidArgument "Invalid internal port")
    else if ¬ (protocol ∈ ["tcp", "udp"]) then
      .error (.invalidArgument "Protocol must be tcp or udp.")
    else
      let fid := fwdId protocol external_ip external_port internal_port
      if fid ∈ r.forwarding.map (fun x => x.id) then .ok (r, fid)
      else .ok ({r with forwarding := r.forwarding ++
        [⟨fid, protocol, external_ip, pyStr external_port, pyStr internal_port⟩]}, fid)

/-- Property dictionary handed to `set_properties`, after the `int`,
`str` and `bool` coercions at the top of the function. -/
structure Props where
  memory : Int
  cores : Int
  cpu : String
  machine : String
  vga : String
  sound : String
  bootorder : String
  network : String
  floppy : Option String
  scsi : String
  numa : Bool
  rtc : String
  deriving DecidableEq, Repr

/-- Assignment block at the end of `set_properties` (lines 1198-1210). -/
def applyProps (r : VMRecord) (p : Props) : VMRecord :=
  { r with
    memory := p.memory
    cores := p.cores
    cpu := p.cpu
    machine := p.machine
    vga := p.vga
    sound := p.sound
    bootorder := p.bootorder
    network := p.network
    floppy := p.floppy
    scsi := p.scsi
    numa := p.numa
    rtc := p.rtc }

/-- Translation of `VertiVMLive.set_properties` (lines 1149-1210): the
offline guard, then the validation elif-chain in source order.  A present
floppy terminates the chain, so the rtc and cpu checks run only when the
floppy is None (the source's `type(floppy) != str` disjunct is always
false here since a present floppy is a string).  All assignments happen
after every executed check passed. -/
def setProperties (hostCpus : Int) (isfile : String → Bool) (r : VMRecord)
    (p : Props) : Except VErr VMRecord :=
  if r.state ≠ "offline" then
    .error (.invalidStateChange "Function requires VM to be offline")
  else if p.memory < 8388608 then
    .error (.invalidArgument "Memory allocation too low")
  else if p.cores > hostCpus ∨ p.cores < 1 then
    .error (.invalidArgument "Invalid core count")
  else if ¬ (p.vga ∈ vgaKeys) then
    .error (.invalidArgument "Invalid display adapter")
  else if ¬ (p.machine ∈ machineKeys) then
    .error (.invalidArgument "Invalid machine type")
  else if ¬ (p.sound ∈ soundKeys) then
    .error (.invalidArgument "Invalid audio adapter type")
  else if ¬ (p.network ∈ networkKeys) then
    .error (.invalidArgument "Invalid network device type")
  else if ¬ (p.scsi ∈ scsiKeys) then
    .error (.invalidArgument "Invalid SCSI controller")
  else if ¬ (p.bootorder.toList.all (fun c => c ∈ ['a', 'b', 'c', 'd', 'n', 'p'])) then
    .error (.invalidArgument "Invalid boot order")
  else
    match p.floppy with
    | some f =>
      if ¬ isfile f then .error (.invalidArgument "Invalid floppy file")
      else .ok (applyProps r p)
    | none =>
      if ¬ (p.rtc ∈ rtcKeys) then
        .error (.invalidArgument "Invalid RTC clock preset")
      else if ¬ (p.cpu ∈ cpuKeys) then
        .error (.invalidArgument "Invalid processor")
      else .ok (applyProps r p)

/-- Translation of `VertiVMLive.__file_cleanup`: unlink the audio pipe,
swallowing a missing file or a None path; the `audiopipe` field is
cleared only in the `else` branch, that is only when the unlink
succeeded.  The filesystem is an existence map. -/
def fileCleanup (fs : String → Bool) (r : VMRecord) : (String → Bool) × VMRecord :=
  match r.audiopipe with
  | none => (fs, r)
  | some p =>
    if fs p then ((fun q => if q = p then false else fs q), {r with audiopipe := none})
    else (fs, r)

/-- Translation of `VertiVMLive.__mark_offline`: file cleanup, then clear
the pid, clear the audio-thread flag and set the state offline (the
display disconnect has no record effect). -/
def markOffline (fs : String → Bool) (r : VMRecord) : (String → Bool) × VMRecord :=
  let c := fileCleanup fs r
  (c.1, {c.2 with audiothrd := false, pid := none, state := "offline"})

/-- Translation of `VertiVMLive._state_check`: when the record claims a
non-offline state and the OS process is alive (pid found, command line
still holding the VM id, not a zombie — collapsed into the `alive` flag),
keep the state and arm the audio-thread flag once; otherwise run the
offline transition. -/
def stateCheck (alive : Bool) (fs : String → Bool) (r : VMRecord) :
    (String → Bool) × VMRecord :=
  if r.state ≠ "offline" ∧ alive then
    (fs, if r.audiothrd = false then {r with audiothrd := true} else r)
  else markOffline fs r

/-- Translation of `VertiVMLive.stop`: probe the state
(`__check_running` calls `state()`), fail with InvalidStateChange when
the probed state is offline, otherwise signal the process (no record
effect) and run the offline transition.  The record and filesystem after
the call are returned alongside the outcome, since the probe's effects
persist even when the call raises. -/
def stop (alive : Bool) (fs : String → Bool) (r : VMRecord) :
    (String → Bool) × VMRecord × Except VErr Unit :=
  let c := stateCheck alive fs r
  if c.2.state = "offline" then
    (c.1, c.2, .error (.invalidStateChange "Function requires VM to be online"))
  else
    let m := markOffline c.1 c.2
    (m.1, m.2, .ok ())

/-- Translation of the lifecycle skeleton of `VertiVMLive.start`: probe
the state, fail with InvalidStateChange unless the probe reports offline
(launching nothing), otherwise allocate a fresh audio pipe, compile the
arguments, and on success record the new pid and flip the state online.
The ok payload is the launched argument vector; an error launches no
process. -/
def start (qemu : String) (env : CompileEnv) (freshPipe : String)
    (newPid : Int) (alive : Bool) (fs : String → Bool) (r : VMRecord) :
    (String → Bool) × VMRecord × Except VErr (List String) :=
  let c := stateCheck alive fs r
  if c.2.state = "offline" then
    let fs1 : String → Bool := fun p =>
      if c.2.audiopipe = some p then false else c.1 p
    let r1 := {c.2 with audiopipe := some freshPipe}
    let fs2 : String → Bool := fun p => if p = freshPipe then true else fs1 p
    match compile qemu env r1 with
    | .error e => (fs2, r1, .error e)
    | .ok args => (fs2, {r1 with pid := some newPid, state := "online"}, .ok args)
  else (c.1, c.2, .error (.invalidStateChange "Invalid state for start()!"))

/-! Helper lemmas about `Except` results and the escape guard. -/

theorem ebind_ok {α β : Type} {x : Except VErr α} {f : α → Except VErr β} {v : β} :
    (x >>= f) = .ok v ↔ ∃ a, x = .ok a ∧ f a = .ok v := by
  cases x <;> simp [Bind.bind, Except.bind]

theorem isOk_iff {α : Type} {x : Except VErr α} :
    x.isOk = true ↔ ∃ a, x = .ok a := by
  cases x <;> simp [Except.isOk, Except.toBool]

theorem ebind_isOk {α β : Type} {x : Except VErr α} {f : α → Except VErr β} :
    (x >>= f).isOk = true ↔ ∃ a, x = .ok a ∧ (f a).isOk = true := by
  cases x <;> simp [Bind.bind, Except.bind, Except.isOk, Except.toBool]

theorem ebind_error {α β : Type} {x : Except VErr α} {f : α → Except VErr β} {e : VErr} :
    (x >>= f) = .error e ↔
      x = .error e ∨ ∃ a, x = .ok a ∧ f a = .error e := by
  cases x <;> simp [Bind.bind, Except.bind]

theorem pure_eq_ok {α : Type} (a : α) : (pure a : Except VErr α) = .ok a := rfl

theorem argescape_ok {s t : String} (h : argescape s = .ok t) : hasDeny s = false := by
  revert h
  unfold argescape
  cases hd : hasDeny s <;> simp

theorem argescape_clean {s : String} (h : hasDeny s = false) :
    argescape s = .ok (shlexQuote s) := by
  unfold argescape
  rw [h]
  rfl

theorem argescape_deny {s : String} (h : hasDeny s = true) :
    argescape s = .error (.invalidArgument (malformedMsg s)) := by
  unfold argescape
  rw [h]
  rfl

theorem argescape_error {s : String} {e : VErr} (h : argescape s = .error e) :
    e = .invalidArgument (malformedMsg s) := by
  unfold argescape at h
  cases hd : hasDeny s
  · rw [hd] at h
    simp at h
  · rw [hd] at h
    simp at h
    exact h.symm

/-! Free-form strings the compiler escapes, and the C1 safety proof. -/

/-- Free-form fields of one forwarding rule, in escape order. -/
def fwdInputs (x : Forwarding) : List String :=
  [x.protocol, x.external_ip, x.external_port, x.internal_port]

/-- Free-form strings escaped for one drive: its absolute path, and its
interface type except in the virtio branch. -/
def driveInputs (env : CompileEnv) (d : Drive) : List String :=
  if d.type = "virtio" then [env.abspath d.path]
  else [env.abspath d.path, d.type]

/-- Every free-form string `compile` passes through `__argescape` on a
successful run: the eight scalar fields, the forwarding fields, the SCSI
model (standard machines only), the floppy path when present, and the
absolute CD-ROM and drive paths with drive interface types. -/
def escapedInputs (env : CompileEnv) (r : VMRecord) : List String :=
  [r.id, r.bootorder, r.cpu, r.machine, r.rtc, r.vga, pipePath r, r.network] ++
  (r.forwarding.map fwdInputs).flatten ++
  (if r.machine ≠ "isapc" then [r.scsi] else []) ++
  (match r.floppy with | some f => [f] | none => []) ++
  r.cdroms.map env.abspath ++
  (r.drives.map (driveInputs env)).flatten

theorem fwdClause_ok {x : Forwarding} {c : String} (h : fwdClause x = .ok c) :
    ∀ s ∈ fwdInputs x, hasDeny s = false := by
  unfold fwdClause at h
  obtain ⟨p, hp, h⟩ := ebind_ok.mp h
  obtain ⟨ip, hip, h⟩ := ebind_ok.mp h
  obtain ⟨ep, hep, h⟩ := ebind_ok.mp h
  obtain ⟨iq, hiq, h⟩ := ebind_ok.mp h
  intro s hs
  simp only [fwdInputs, List.mem_cons, List.not_mem_nil, or_false] at hs
  rcases hs with rfl | rfl | rfl | rfl
  · exact argescape_ok hp
  · exact argescape_ok hip
  · exact argescape_ok hep
  · exact argescape_ok hiq

theorem fwdClauses_ok {L : List Forwarding} {cs : List String}
    (h : fwdClauses L = .ok cs) :
    ∀ x ∈ L, ∀ s ∈ fwdInputs x, hasDeny s = false := by
  induction L generalizing cs with
  | nil => intro x hx; exact absurd hx (List.not_mem_nil x)
  | cons y ys ih =>
    unfold fwdClauses at h
    obtain ⟨c, hc, h⟩ := ebind_ok.mp h
    obtain ⟨cs2, hcs2, _⟩ := ebind_ok.mp h
    intro x hx
    rcases List.mem_cons.mp hx with rfl | hx2
    · exact fwdClause_ok hc
    · exact ih hcs2 x hx2

theorem netdevArg_ok {L : List Forwarding} {s : String} (h : netdevArg L = .ok s) :
    ∀ x ∈ L, ∀ t ∈ fwdInputs x, hasDeny t = false := by
  unfold netdevArg at h
  obtain ⟨cs, hcs, _⟩ := ebind_ok.mp h
  exact fwdClauses_ok hcs

theorem baseArgs_ok {qemu : String} {r : VMRecord} {l : List String}
    (h : baseArgs qemu r = .ok l) :
    hasDeny r.id = false ∧ hasDeny r.bootorder = false ∧
    hasDeny r.cpu = false ∧ hasDeny r.machine = false ∧
    hasDeny r.rtc = false ∧ hasDeny r.vga = false ∧
    hasDeny (pipePath r) = false ∧ hasDeny r.network = false ∧
    ∀ x ∈ r.forwarding, ∀ s ∈ fwdInputs x, hasDeny s = false := by
  unfold baseArgs at h
  obtain ⟨a1, h1, h⟩ := ebind_ok.mp h
  obtain ⟨a2, h2, h⟩ := ebind_ok.mp h
  obtain ⟨a3, h3, h⟩ := ebind_ok.mp h
  obtain ⟨a4, h4, h⟩ := ebind_ok.mp h
  obtain ⟨a5, h5, h⟩ := ebind_ok.mp h
  obtain ⟨a6, h6, h⟩ := ebind_ok.mp h
  obtain ⟨a7, h7, h⟩ := ebind_ok.mp h
  obtain ⟨a8, h8, h⟩ := ebind_ok.mp h
  obtain ⟨a9, h9, _⟩ := ebind_ok.mp h
  exact ⟨argescape_ok h1, argescape_ok h2, argescape_ok h3, argescape_ok h4,
    argescape_ok h5, argescape_ok h6, argescape_ok h7, argescape_ok h8,
    netdevArg_ok h9⟩

theorem machineDevices_ok {r : VMRecord} {l : List String}
    (h : machineDevices r = .ok l) (hm : r.machine ≠ "isapc") :
    hasDeny r.scsi = false := by
  unfold machineDevices at h
  rw [if_pos hm] at h
  obtain ⟨u, hu, h⟩ := ebind_ok.mp h
  obtain ⟨sc, hsc, _⟩ := ebind_ok.mp h
  exact argescape_ok hsc

theorem floppyArgs_ok {env : CompileEnv} {r : VMRecord} {l : List String}
    (h : floppyArgs env r = .ok l) :
    ∀ f, r.floppy = some f → hasDeny f = false := by
  intro f hf
  unfold floppyArgs at h
  split at h
  next heq =>
    rw [hf] at heq
    exact absurd heq (by simp)
  next g heq =>
    rw [hf] at heq
    have hgf : g = f := (Option.some.inj heq).symm
    subst hgf
    split at h
    · exact absurd h (by simp)
    · obtain ⟨fq, hfq, _⟩ := ebind_ok.mp h
      exact argescape_ok hfq

theorem cdromArgs_ok {env : CompileEnv} {cs : List String} {i k : Nat}
    {res : List String × Nat} (h : cdromArgs env cs i k = .ok res) :
    ∀ c ∈ cs, hasDeny (env.abspath c) = false := by
  induction cs generalizing i k res with
  | nil => intro c hc; exact absurd hc (List.not_mem_nil c)
  | cons y ys ih =>
    unfold cdromArgs at h
    by_cases hex : env.isfile y
    · rw [if_pos hex] at h
      obtain ⟨pq, hpq, h⟩ := ebind_ok.mp h
      obtain ⟨rest, hrest, _⟩ := ebind_ok.mp h
      intro c hc
      rcases List.mem_cons.mp hc with rfl | hc2
      · exact argescape_ok hpq
      · exact ih hrest c hc2
    · rw [if_neg hex] at h
      exact absurd h (by simp)

theorem driveArgs_ok {env : CompileEnv} {m : String} {ds : List Drive} {i k : Nat}
    {res : List String × Nat} (h : driveArgs env m ds i k = .ok res) :
    ∀ d ∈ ds, ∀ s ∈ driveInputs env d, hasDeny s = false := by
  induction ds generalizing i k res with
  | nil => intro d hd; exact absurd hd (List.not_mem_nil d)
  | cons y ys ih =>
    unfold driveArgs at h
    by_cases hex : env.isfile y.path
    case neg => rw [if_neg hex] at h; exact absurd h (by simp)
    rw [if_pos hex] at h
    by_cases hisa : m = "isapc" ∧ y.type ≠ "ide"
    case pos => rw [if_pos hisa] at h; exact absurd h (by simp)
    rw [if_neg hisa] at h
    by_cases hmain : y.type ∈ ["ahci", "ide", "scsi"]
    · rw [if_pos hmain] at h
      obtain ⟨pq, hpq, h⟩ := ebind_ok.mp h
      obtain ⟨tq, htq, h⟩ := ebind_ok.mp h
      obtain ⟨rest, hrest, _⟩ := ebind_ok.mp h
      intro d hd
      rcases List.mem_cons.mp hd with rfl | hd2
      · intro s hs
        unfold driveInputs at hs
        have hnv : ¬ d.type = "virtio" := by
          intro hv
          rw [hv] at hmain
          simp at hmain
        rw [if_neg hnv] at hs
        rcases List.mem_cons.mp hs with rfl | hs2
        · exact argescape_ok hpq
        · rcases List.mem_cons.mp hs2 with rfl | hs3
          · exact argescape_ok htq
          · exact absurd hs3 (List.not_mem_nil s)
      · exact ih hrest d hd2
    · rw [if_neg hmain] at h
      by_cases hvirt : y.type = "virtio"
      · rw [if_pos hvirt] at h
        obtain ⟨pq, hpq, h⟩ := ebind_ok.mp h
        obtain ⟨rest, hrest, _⟩ := ebind_ok.mp h
        intro d hd
        rcases List.mem_cons.mp hd with rfl | hd2
        · intro s hs
          unfold driveInputs at hs
          rw [if_pos hvirt] at hs
          rcases List.mem_cons.mp hs with rfl | hs2
          · exact argescape_ok hpq
          · exact absurd hs2 (List.not_mem_nil s)
        · exact ih hrest d hd2
      · rw [if_neg hvirt] at h
        exact absurd h (by simp)

/-- C1 (amended): every string holding a deny-list character is rejected
by `__argescape` with an invalid-argument error naming it, and every
free-form string a successful compile actually escaped and inserted is
free of deny-list characters.  (The original claim's stronger reading
that no *element* of the compiled vector holds such a character is
refuted separately: fixed template syntax inside elements uses commas,
colons and equals signs.) -/
theorem compile_ok_escaped_inputs_clean :
    (∀ s, hasDeny s = true →
      argescape s = .error (.invalidArgument (malformedMsg s))) ∧
    ∀ (qemu : String) (env : CompileEnv) (r : VMRecord),
      (compile qemu env r).isOk = true →
      ∀ s ∈ escapedInputs env r, hasDeny s = false := by
  constructor
  · exact fun s hs => argescape_deny hs
  intro qemu env r h
  obtain ⟨args, h⟩ := isOk_iff.mp h
  unfold compile at h
  obtain ⟨base, hbase, h⟩ := ebind_ok.mp h
  obtain ⟨mdev, hmdev, h⟩ := ebind_ok.mp h
  obtain ⟨flop, hflop, h⟩ := ebind_ok.mp h
  obtain ⟨snd, hsnd, h⟩ := ebind_ok.mp h
  obtain ⟨cds, hcds, h⟩ := ebind_ok.mp h
  obtain ⟨drvs, hdrvs, _⟩ := ebind_ok.mp h
  obtain ⟨hid, hbo, hcpu, hmac, hrtc, hvga, hap, hnet, hfwd⟩ := baseArgs_ok hbase
  intro s hs
  unfold escapedInputs at hs
  simp only [List.mem_append] at hs
  rcases hs with ((((hs | hs) | hs) | hs) | hs) | hs
  · simp only [List.mem_cons, List.not_mem_nil, or_false] at hs
    rcases hs with rfl | rfl | rfl | rfl | rfl | rfl | rfl | rfl
    · exact hid
    · exact hbo
    · exact hcpu
    · exact hmac
    · exact hrtc
    · exact hvga
    · exact hap
    · exact hnet
  · obtain ⟨l2, hl2, hsl2⟩ := List.mem_flatten.mp hs
    obtain ⟨x, hx, rfl⟩ := List.mem_map.mp hl2
    exact hfwd x hx s hsl2
  · by_cases hm : r.machine ≠ "isapc"
    · rw [if_pos hm] at hs
      simp only [List.mem_cons, List.not_mem_nil, or_false] at hs
      subst hs
      exact machineDevices_ok hmdev hm
    · rw [if_neg hm] at hs
      exact absurd hs (List.not_mem_nil s)
  · cases hfl : r.floppy with
    | none => rw [hfl] at hs; exact absurd hs (List.not_mem_nil s)
    | some f =>
      rw [hfl] at hs
      simp only [List.mem_cons, List.not_mem_nil, or_false] at hs
      subst hs
      exact floppyArgs_ok hflop s hfl
  · obtain ⟨c, hc, rfl⟩ := List.mem_map.mp hs
    exact cdromArgs_ok hcds c hc
  · obtain ⟨l2, hl2, hsl2⟩ := List.mem_flatten.mp hs
    obtain ⟨d, hd, rfl⟩ := List.mem_map.mp hl2
    exact driveArgs_ok hdrvs d hd s hsl2

/-- Compile environment used by the concrete witnesses: every path
exists, paths are already absolute, device ids are a fixed lowercase
string. -/
def env0 : CompileEnv := ⟨fun _ => true, fun s => s, fun _ => "abcdefghijklmnop"⟩

/-- Freshly-configured record used by the concrete witnesses: the column
defaults of `VertiVM` with an id and an audio pipe path as `start` sets
them. -/
def rec0 : VMRecord :=
  { id := "11111111-2222-3333-4444-555555555555", ports := ⟨5905, 40001, 40002⟩,
    pid := none, audiopipe := some "/tmp/pipe1.pipe", audiothrd := false,
    state := "offline", memory := 134217728, cores := 1, cpu := "host",
    machine := "pc", vga := "std", sound := "hda", bootorder := "cdn",
    network := "rtl8139", scsi := "lsi53c895a", rtc := "utc", floppy := none,
    numa := false, cdroms := [], drives := [], forwarding := [] }

/-- Witness for C1 (amended): the cpu model of a concretely compiled
record is deny-free, by the theorem applied at that record. -/
theorem compile_ok_escaped_inputs_clean_witness :
    hasDeny (VMRecord.cpu rec0) = false :=
  compile_ok_escaped_inputs_clean.2 "qemu-kvm" env0 rec0 (by decide)
    (VMRecord.cpu rec0) (by decide)

/-- Counterexample for C1 as stated: a record with entirely deny-free
free-form values compiles successfully, yet the compiled vector has an
element holding deny-list characters (the fixed `-sandbox` and `-monitor`
option syntax uses commas, equals signs and colons). -/
theorem compile_ok_vector_contains_deny_char :
    (match compile "qemu-kvm" env0 rec0 with
      | .ok args => args.any hasDeny
      | .error _ => false) = true := by decide

/-! IDE unit cap: counters and the C3 analysis. -/

/-- Units the source actually counts against the IDE cap: CD-ROMs plus
drives of interface type `ide` (line 1054 increments only for `ide`). -/
def ideUnits (r : VMRecord) : Nat :=
  r.cdroms.length + (r.drives.filter (fun d => d.type == "ide")).length

/-- Count named by the claim: CD-ROMs plus drives of interface type `ide`
or `ahci`. -/
def ideClassCount (r : VMRecord) : Nat :=
  r.cdroms.length +
  (r.drives.filter (fun d => d.type == "ide" || d.type == "ahci")).length

theorem cdromArgs_count {env : CompileEnv} {cs : List String} {i k : Nat}
    {res : List String × Nat} (h : cdromArgs env cs i k = .ok res) :
    res.2 = k + cs.length := by
  induction cs generalizing i k res with
  | nil =>
    unfold cdromArgs at h
    rw [← Except.ok.inj h]
    simp
  | cons y ys ih =>
    unfold cdromArgs at h
    by_cases hex : env.isfile y
    · rw [if_pos hex] at h
      obtain ⟨pq, hpq, h⟩ := ebind_ok.mp h
      obtain ⟨rest, hrest, h⟩ := ebind_ok.mp h
      have hrec := ih hrest
      rw [pure_eq_ok] at h
      rw [← Except.ok.inj h]
      simp only [List.length_cons]
      omega
    · rw [if_neg hex] at h
      exact absurd h (by simp)

theorem driveArgs_count {env : CompileEnv} {m : String} {ds : List Drive}
    {i k : Nat} {res : List String × Nat}
    (h : driveArgs env m ds i k = .ok res) :
    res.2 = k + (ds.filter (fun d => d.type == "ide")).length := by
  induction ds generalizing i k res with
  | nil =>
    unfold driveArgs at h
    rw [← Except.ok.inj h]
    simp
  | cons y ys ih =>
    unfold driveArgs at h
    by_cases hex : env.isfile y.path
    case neg => rw [if_neg hex] at h; exact absurd h (by simp)
    rw [if_pos hex] at h
    by_cases hisa : m = "isapc" ∧ y.type ≠ "ide"
    case pos => rw [if_pos hisa] at h; exact absurd h (by simp)
    rw [if_neg hisa] at h
    by_cases hmain : y.type ∈ ["ahci", "ide", "scsi"]
    · rw [if_pos hmain] at h
      obtain ⟨pq, hpq, h⟩ := ebind_ok.mp h
      obtain ⟨tq, htq, h⟩ := ebind_ok.mp h
      obtain ⟨rest, hrest, h⟩ := ebind_ok.mp h
      have hrec := ih hrest
      rw [pure_eq_ok] at h
      rw [← Except.ok.inj h]
      by_cases hide : y.type = "ide"
      · simp only [if_pos hide] at hrec
        simp [List.filter_cons, hide]
        omega
      · simp only [if_neg hide] at hrec
        simp [List.filter_cons, hide]
        omega
    · rw [if_neg hmain] at h
      by_cases hvirt : y.type = "virtio"
      · rw [if_pos hvirt] at h
        obtain ⟨pq, hpq, h⟩ := ebind_ok.mp h
        obtain ⟨rest, hrest, h⟩ := ebind_ok.mp h
        have hrec := ih hrest
        rw [pure_eq_ok] at h
        rw [← Except.ok.inj h]
        have hide : ¬ y.type = "ide" := by simp [hvirt]
        simp [List.filter_cons, hide]
        omega
      · rw [if_neg hvirt] at h
        exact absurd h (by simp)

theorem argescape_err_ne_limit {s : String} {e : VErr}
    (h : argescape s = .error e) : ∀ m, e ≠ .limitReached m := by
  intro m
  rw [argescape_error h]
  simp

theorem pcq35_err {machine a b : String} {e : VErr}
    (h : pcq35 machine a b = .error e) : ∀ m, e ≠ .limitReached m := by
  intro m
  unfold pcq35 at h
  split at h
  · simp at h
  · split at h
    · simp at h
    · simp at h
      rw [← h]
      simp

theorem fwdClause_err {x : Forwarding} {e : VErr}
    (h : fwdClause x = .error e) : ∀ m, e ≠ .limitReached m := by
  unfold fwdClause at h
  rcases ebind_error.mp h with h | ⟨a, _, h⟩
  · exact argescape_err_ne_limit h
  rcases ebind_error.mp h with h | ⟨b, _, h⟩
  · exact argescape_err_ne_limit h
  rcases ebind_error.mp h with h | ⟨c, _, h⟩
  · exact argescape_err_ne_limit h
  rcases ebind_error.mp h with h | ⟨d, _, h⟩
  · exact argescape_err_ne_limit h
  · simp [pure, Except.pure] at h

theorem fwdClauses_err {L : List Forwarding} {e : VErr}
    (h : fwdClauses L = .error e) : ∀ m, e ≠ .limitReached m := by
  induction L with
  | nil => unfold fwdClauses at h; simp at h
  | cons y ys ih =>
    unfold fwdClauses at h
    rcases ebind_error.mp h with h | ⟨c, _, h⟩
    · exact fwdClause_err h
    rcases ebind_error.mp h with h | ⟨cs, _, h⟩
    · exact ih h
    · simp [pure, Except.pure] at h

theorem netdevArg_err {L : List Forwarding} {e : VErr}
    (h : netdevArg L = .error e) : ∀ m, e ≠ .limitReached m := by
  unfold netdevArg at h
  rcases ebind_error.mp h with h | ⟨cs, _, h⟩
  · exact fwdClauses_err h
  · simp [pure, Except.pure] at h

theorem baseArgs_err {qemu : String} {r : VMRecord} {e : VErr}
    (h : baseArgs qemu r = .error e) : ∀ m, e ≠ .limitReached m := by
  unfold baseArgs at h
  rcases ebind_error.mp h with h | ⟨a1, _, h⟩
  · exact argescape_err_ne_limit h
  rcases ebind_error.mp h with h | ⟨a2, _, h⟩
  · exact argescape_err_ne_limit h
  rcases ebind_error.mp h with h | ⟨a3, _, h⟩
  · exact argescape_err_ne_limit h
  rcases ebind_error.mp h with h | ⟨a4, _, h⟩
  · exact argescape_err_ne_limit h
  rcases ebind_error.mp h with h | ⟨a5, _, h⟩
  · exact argescape_err_ne_limit h
  rcases ebind_error.mp h with h | ⟨a6, _, h⟩
  · exact argescape_err_ne_limit h
  rcases ebind_error.mp h with h | ⟨a7, _, h⟩
  · exact argescape_err_ne_limit h
  rcases ebind_error.mp h with h | ⟨a8, _, h⟩
  · exact argescape_err_ne_limit h
  rcases ebind_error.mp h with h | ⟨a9, _, h⟩
  · exact netdevArg_err h
  · simp [pure, Except.pure] at h

theorem machineDevices_err {r : VMRecord} {e : VErr}
    (h : machineDevices r = .error e) : ∀ m, e ≠ .limitReached m := by
  unfold machineDevices at h
  split at h
  · rcases ebind_error.mp h with h | ⟨u, _, h⟩
    · exact pcq35_err h
    rcases ebind_error.mp h with h | ⟨sc, _, h⟩
    · exact argescape_err_ne_limit h
    rcases ebind_error.mp h with h | ⟨ah, _, h⟩
    · exact pcq35_err h
    · simp [pure, Except.pure] at h
  · split at h
    · intro m; simp at h; rw [← h]; simp
    split at h
    · intro m; simp at h; rw [← h]; simp
    split at h
    · intro m; simp at h; rw [← h]; simp
    split at h
    · intro m; simp at h; rw [← h]; simp
    · simp at h

theorem floppyArgs_err {env : CompileEnv} {r : VMRecord} {e : VErr}
    (h : floppyArgs env r = .error e) : ∀ m, e ≠ .limitReached m := by
  unfold floppyArgs at h
  split at h
  · simp at h
  · split at h
    · intro m; simp at h; rw [← h]; simp
    · rcases ebind_error.mp h with h | ⟨fq, _, h⟩
      · exact argescape_err_ne_limit h
      · simp [pure, Except.pure] at h

theorem soundArgs_err {r : VMRecord} {e : VErr}
    (h : soundArgs r = .error e) : ∀ m, e ≠ .limitReached m := by
  unfold soundArgs at h
  split at h
  · simp at h
  split at h
  · rcases ebind_error.mp h with h | ⟨hd, _, h⟩
    · exact pcq35_err h
    · simp [pure, Except.pure] at h
  · intro m; simp at h; rw [← h]; simp

theorem cdromArgs_err {env : CompileEnv} {cs : List String} {i k : Nat}
    {e : VErr} (h : cdromArgs env cs i k = .error e) :
    ∀ m, e ≠ .limitReached m := by
  induction cs generalizing i k with
  | nil => unfold cdromArgs at h; simp at h
  | cons y ys ih =>
    unfold cdromArgs at h
    split at h
    · rcases ebind_error.mp h with h | ⟨pq, _, h⟩
      · exact argescape_err_ne_limit h
      rcases ebind_error.mp h with h | ⟨rest, _, h⟩
      · exact ih h
      · simp [pure, Except.pure] at h
    · intro m; simp at h; rw [← h]; simp

theorem driveArgs_err {env : CompileEnv} {ms : String} {ds : List Drive}
    {i k : Nat} {e : VErr} (h : driveArgs env ms ds i k = .error e) :
    ∀ m, e ≠ .limitReached m := by
  induction ds generalizing i k with
  | nil => unfold driveArgs at h; simp at h
  | cons y ys ih =>
    unfold driveArgs at h
    split at h
    · split at h
      · intro m; simp at h; rw [← h]; simp
      split at h
      · rcases ebind_error.mp h with h | ⟨pq, _, h⟩
        · exact argescape_err_ne_limit h
        rcases ebind_error.mp h with h | ⟨tq, _, h⟩
        · exact argescape_err_ne_limit h
        rcases ebind_error.mp h with h | ⟨rest, _, h⟩
        · exact ih h
        · simp [pure, Except.pure] at h
      split at h
      · rcases ebind_error.mp h with h | ⟨pq, _, h⟩
        · exact argescape_err_ne_limit h
        rcases ebind_error.mp h with h | ⟨rest, _, h⟩
        · exact ih h
        · simp [pure, Except.pure] at h
      · intro m; simp at h; rw [← h]; simp
    · intro m; simp at h; rw [← h]; simp

/-- C3 (amended): the compiler counts CD-ROMs and `ide`-interface drives
against the IDE cap (AHCI drives do not occupy a unit, line 1054
increments the counter only for `ide`): a successful compile implies
this count is at most 2, a limit-reached failure implies it exceeds 2,
and removing one CD-ROM from a configuration whose count is exactly 3
brings it back under the cap. -/
theorem ide_unit_cap :
    ∀ (qemu : String) (env : CompileEnv) (r : VMRecord),
      ((compile qemu env r).isOk = true → ideUnits r ≤ 2) ∧
      (∀ m, compile qemu env r = .error (.limitReached m) → ideUnits r > 2) ∧
      (ideUnits r = 3 → ∀ c cs, r.cdroms = c :: cs →
        ideUnits { r with cdroms := cs } ≤ 2) := by
  intro qemu env r
  refine ⟨?_, ?_, ?_⟩
  · intro h
    obtain ⟨args, h⟩ := isOk_iff.mp h
    unfold compile at h
    obtain ⟨base, hbase, h⟩ := ebind_ok.mp h
    obtain ⟨mdev, hmdev, h⟩ := ebind_ok.mp h
    obtain ⟨flop, hflop, h⟩ := ebind_ok.mp h
    obtain ⟨snd, hsnd, h⟩ := ebind_ok.mp h
    obtain ⟨cds, hcds, h⟩ := ebind_ok.mp h
    obtain ⟨drvs, hdrvs, h⟩ := ebind_ok.mp h
    have hc := cdromArgs_count hcds
    have hd := driveArgs_count hdrvs
    by_cases hgt : drvs.2 > 2
    · rw [if_pos hgt] at h
      simp at h
    · unfold ideUnits
      omega
  · intro m h
    unfold compile at h
    rcases ebind_error.mp h with h | ⟨base, hbase, h⟩
    · exact absurd rfl (baseArgs_err h m)
    rcases ebind_error.mp h with h | ⟨mdev, hmdev, h⟩
    · exact absurd rfl (machineDevices_err h m)
    rcases ebind_error.mp h with h | ⟨flop, hflop, h⟩
    · exact absurd rfl (floppyArgs_err h m)
    rcases ebind_error.mp h with h | ⟨snd, hsnd, h⟩
    · exact absurd rfl (soundArgs_err h m)
    rcases ebind_error.mp h with h | ⟨cds, hcds, h⟩
    · exact absurd rfl (cdromArgs_err h m)
    rcases ebind_error.mp h with h | ⟨drvs, hdrvs, h⟩
    · exact absurd rfl (driveArgs_err h m)
    have hc := cdromArgs_count hcds
    have hd := driveArgs_count hdrvs
    by_cases hgt : drvs.2 > 2
    · unfold ideUnits
      omega
    · rw [if_neg hgt] at h
      simp [pure, Except.pure] at h
  · intro h3 c cs hcc
    unfold ideUnits at h3 ⊢
    rw [hcc] at h3
    simp only [List.length_cons] at h3
    simp only []
    omega

/-- Record exceeding the claim's CD-ROM plus IDE/AHCI count but not the
code's counter: two CD-ROMs and one AHCI drive. -/
def rec3 : VMRecord :=
  { rec0 with cdroms := ["/a.iso", "/b.iso"], drives := [⟨"/c.img", "ahci"⟩] }

/-- Witness for C3 (amended): the theorem applied to the two-CD-ROM
one-AHCI record, discharging the compile-success hypothesis by
evaluation. -/
theorem ide_unit_cap_witness : ideUnits rec3 ≤ 2 :=
  (ide_unit_cap "qemu-kvm" env0 rec3).1 (by decide)

/-- Counterexample for C3 as stated: a record whose CD-ROM plus IDE/AHCI
count is 3 (over the claimed cap) still compiles successfully, because
the code never counts AHCI drives against the cap. -/
theorem ide_class_count_over_cap_compiles :
    ideClassCount rec3 = 3 ∧ (compile "qemu-kvm" env0 rec3).isOk = true := by
  constructor
  · decide
  · decide

/-! ISA topology rules (C8). -/

theorem ok_bind {α β : Type} (a : α) (f : α → Except VErr β) :
    ((.ok a : Except VErr α) >>= f) = f a := rfl

theorem err_bind {α β : Type} (e : VErr) (f : α → Except VErr β) :
    ((.error e : Except VErr α) >>= f) = .error e := rfl

theorem networkKeys_clean : ∀ s ∈ networkKeys, hasDeny s = false := by decide

theorem vgaKeys_clean : ∀ s ∈ vgaKeys, hasDeny s = false := by decide

theorem baseArgs_ok_of_clean (qemu : String) {r : VMRecord}
    (h1 : hasDeny r.id = false) (h2 : hasDeny r.bootorder = false)
    (h3 : hasDeny r.cpu = false) (h4 : hasDeny r.machine = false)
    (h5 : hasDeny r.rtc = false) (h6 : hasDeny r.vga = false)
    (h7 : hasDeny (pipePath r) = false) (h8 : hasDeny r.network = false)
    (h9 : r.forwarding = []) : (baseArgs qemu r).isOk = true := by
  unfold baseArgs
  rw [argescape_clean h1, ok_bind, argescape_clean h2, ok_bind,
    argescape_clean h3, ok_bind, argescape_clean h4, ok_bind,
    argescape_clean h5, ok_bind, argescape_clean h6, ok_bind,
    argescape_clean h7, ok_bind, argescape_clean h8, ok_bind, h9]
  rfl

/-- Deny-freeness of the fixed field values shared by the witness
records. -/
theorem rec0_fields_clean :
    hasDeny "11111111-2222-3333-4444-555555555555" = false ∧
    hasDeny "cdn" = false ∧ hasDeny "host" = false ∧
    hasDeny "utc" = false ∧ hasDeny "/tmp/pipe1.pipe" = false ∧
    hasDeny "isapc" = false ∧ hasDeny "pc" = false ∧
    hasDeny "q35" = false := by decide

theorem machineDevices_isa_err {r : VMRecord} (hmach : r.machine = "isapc")
    (hviol : ¬ (r.sound ∈ ["adlib", "sb16", "gus"]) ∨ r.network ≠ "ne2k_isa" ∨
      ¬ (r.vga ∈ ["vga", "cirrus"]) ∨ r.cores > 1) :
    ∃ m, machineDevices r = .error (.invalidGenericDeviceType m) := by
  unfold machineDevices
  rw [if_neg (by simp [hmach])]
  by_cases c1 : r.sound ∈ ["adlib", "sb16", "gus"]
  case neg => exact ⟨_, by rw [if_pos c1]⟩
  rw [if_neg (not_not_intro c1)]
  by_cases c2 : r.network ∈ ["ne2k_isa"]
  case neg => exact ⟨_, by rw [if_pos c2]⟩
  rw [if_neg (not_not_intro c2)]
  by_cases c3 : r.vga ∈ ["vga", "cirrus"]
  case neg => exact ⟨_, by rw [if_pos c3]⟩
  rw [if_neg (not_not_intro c3)]
  by_cases c4 : r.cores > 1
  case pos => exact ⟨_, by rw [if_pos c4]⟩
  exfalso
  have hnet : r.network = "ne2k_isa" := by
    simpa using c2
  rcases hviol with hv | hv | hv | hv
  · exact hv c1
  · exact hv hnet
  · exact hv c3
  · exact c4 hv

/-- Record used by the C8 analysis: the witness defaults with the sound,
network, VGA, core count and machine type under test. -/
def rec8 (sound network vga : String) (cores : Int) (machine : String) :
    VMRecord :=
  { rec0 with
    sound := sound
    network := network
    vga := vga
    cores := cores
    machine := machine }

/-- C8: on `isapc`, a sound model outside the ISA subset, a network model
other than `ne2k_isa`, a VGA model outside the ISA pair, or more than one
core makes the compile fail with invalid-generic-device-type; the same
sound, network, VGA and core configuration (drawn from the validated
device key sets) compiles successfully on the standard machine types `pc`
and `q35`. -/
theorem isa_topology_rules :
    ∀ (qemu : String) (env : CompileEnv) (sound network vga : String)
      (cores : Int),
      sound ∈ soundKeys → network ∈ networkKeys → vga ∈ vgaKeys →
      ((¬ (sound ∈ ["adlib", "sb16", "gus"]) ∨ network ≠ "ne2k_isa" ∨
        ¬ (vga ∈ ["vga", "cirrus"]) ∨ cores > 1) →
        ∃ m, compile qemu env (rec8 sound network vga cores "isapc") =
          .error (.invalidGenericDeviceType m)) ∧
      (∀ mach, mach = "pc" ∨ mach = "q35" →
        (compile qemu env (rec8 sound network vga cores mach)).isOk = true) := by
  intro qemu env sound network vga cores hs hn hv
  constructor
  · intro hviol
    obtain ⟨l, hl⟩ := isOk_iff.mp
      (baseArgs_ok_of_clean qemu (r := rec8 sound network vga cores "isapc")
        rec0_fields_clean.1 rec0_fields_clean.2.1 rec0_fields_clean.2.2.1
        rec0_fields_clean.2.2.2.2.2.1 rec0_fields_clean.2.2.2.1
        (vgaKeys_clean vga hv) rec0_fields_clean.2.2.2.2.1
        (networkKeys_clean network hn) rfl)
    obtain ⟨m, hm⟩ := machineDevices_isa_err
      (r := rec8 sound network vga cores "isapc") rfl hviol
    refine ⟨m, ?_⟩
    unfold compile
    rw [hl, ok_bind, hm, err_bind]
  · intro mach hmach
    have hmclean : hasDeny (rec8 sound network vga cores mach).machine = false := by
      rcases hmach with rfl | rfl
      · exact rec0_fields_clean.2.2.2.2.2.2.1
      · exact rec0_fields_clean.2.2.2.2.2.2.2
    obtain ⟨l, hl⟩ := isOk_iff.mp
      (baseArgs_ok_of_clean qemu (r := rec8 sound network vga cores mach)
        rec0_fields_clean.1 rec0_fields_clean.2.1 rec0_fields_clean.2.2.1
        hmclean rec0_fields_clean.2.2.2.1
        (vgaKeys_clean vga hv) rec0_fields_clean.2.2.2.2.1
        (networkKeys_clean network hn) rfl)
    unfold compile
    rw [hl, ok_bind]
    fin_cases hs <;> rcases hmach with rfl | rfl <;> rfl

/-- Witness for C8: a default pc-style configuration (hda sound, rtl8139
network, std VGA, 4 cores) is rejected on isapc with
invalid-generic-device-type and compiles on pc, by the theorem applied at
those concrete values. -/
theorem isa_topology_rules_witness :
    (∃ m, compile "qemu-kvm" env0 (rec8 "hda" "rtl8139" "std" 4 "isapc") =
      .error (.invalidGenericDeviceType m)) ∧
    (compile "qemu-kvm" env0 (rec8 "hda" "rtl8139" "std" 4 "pc")).isOk = true := by
  have h := isa_topology_rules "qemu-kvm" env0 "hda" "rtl8139" "std" 4
    (by decide) (by decide) (by decide)
  exact ⟨h.1 (Or.inl (by decide)), h.2 "pc" (Or.inl rfl)⟩

/-! Audio container synthesis (C2). -/

theorem replicate_not_riff :
    ¬ ((List.replicate AUDIO_BLOCK_SIZE (0 : Nat)).take 4 = [82, 73, 70, 70] ∧
      ((List.replicate AUDIO_BLOCK_SIZE (0 : Nat)).drop 8).take 4 = [87, 65, 86, 69]) := by
  intro h
  have h1 := h.1
  rw [List.take_replicate] at h1
  exact absurd h1 (by decide)

theorem audioStrip_replicate :
    audioStrip (List.replicate AUDIO_BLOCK_SIZE 0) =
      List.replicate AUDIO_BLOCK_SIZE 0 := by
  unfold audioStrip
  rw [if_neg replicate_not_riff]

theorem audioRead_empty_eq :
    audioRead [] = audioHeader AUDIO_BLOCK_SIZE ++ List.replicate AUDIO_BLOCK_SIZE 0 := by
  unfold audioRead audioPad
  rw [audioStrip_replicate, List.length_replicate]

/-- C2 evaluation at the failing input: reading an empty ring buffer does
not return the bare 44-byte header the docstring promises.  The result is
44 + AUDIO_BLOCK_SIZE = 4140 bytes: the synthesized header followed by a
full block of zero padding, with the data-subchunk length field encoding
AUDIO_BLOCK_SIZE (not 0) and the RIFF size field encoding 4132 (total
minus 8, so the length fields are mutually consistent but not consistent
with zero payload). -/
theorem audioRead_empty_buffer_padded :
    (audioRead []).length = 44 + AUDIO_BLOCK_SIZE ∧
    ((audioRead []).drop 40).take 4 = le4 AUDIO_BLOCK_SIZE ∧
    ((audioRead []).drop 4).take 4 = le4 ((44 + AUDIO_BLOCK_SIZE) - 8) ∧
    le4 AUDIO_BLOCK_SIZE ≠ le4 0 ∧ (audioRead []).length ≠ 44 := by
  have hdr40 : (audioHeader AUDIO_BLOCK_SIZE).drop 40 = le4 AUDIO_BLOCK_SIZE := by
    decide
  have hdr4 : ((audioHeader AUDIO_BLOCK_SIZE).drop 4).take 4 = le4 4132 := by
    decide
  have hlen : (audioHeader AUDIO_BLOCK_SIZE).length = 44 := by decide
  refine ⟨?_, ?_, ?_, by decide, ?_⟩
  · rw [audioRead_empty_eq, List.length_append, List.length_replicate, hlen]
  · rw [audioRead_empty_eq, List.drop_append_eq_append_drop, hdr40, hlen]
    norm_num
    rw [List.take_append_eq_append_take]
    have h4 : (le4 AUDIO_BLOCK_SIZE).length = 4 := by decide
    rw [h4]
    norm_num
    exact h4.le
  · rw [audioRead_empty_eq, List.drop_append_eq_append_drop, hlen]
    norm_num
    rw [List.take_append_eq_append_take]
    have h40 : ((audioHeader AUDIO_BLOCK_SIZE).drop 4).length = 40 := by decide
    rw [h40]
    norm_num
    exact hdr4
  · rw [audioRead_empty_eq, List.length_append, List.length_replicate, hlen]
    decide

/-! Offline transition (C4). -/

/-- Counterexample for C4 as stated: when the audio pipe file is already
gone, `__file_cleanup` swallows the unlink failure and its `else` branch —
the only place the field is cleared — is skipped, so the offline
transition does NOT clear the audio pipe path field. -/
theorem mark_offline_keeps_stale_pipe_path :
    ((markOffline (fun _ => false)
      { rec0 with state := "online", pid := some 5, audiothrd := true }).2).audiopipe
      = some "/tmp/pipe1.pipe" := by rfl

/-- C4 (amended): the offline transition clears the pid, clears the
audio-thread flag and sets the state offline; it deletes the audio pipe
file when present and tolerates its absence; the audio pipe path field is
cleared exactly when the deletion succeeded (a stale path whose file is
already gone is kept); and the transition is idempotent. -/
theorem fileCleanup_none {fs : String → Bool} {r : VMRecord}
    (h : r.audiopipe = none) : fileCleanup fs r = (fs, r) := by
  simp only [fileCleanup, h]

theorem fileCleanup_gone {fs : String → Bool} {r : VMRecord} {p : String}
    (h : r.audiopipe = some p) (hf : fs p = false) :
    fileCleanup fs r = (fs, r) := by
  simp only [fileCleanup, h, hf]
  simp

theorem fileCleanup_present {fs : String → Bool} {r : VMRecord} {p : String}
    (h : r.audiopipe = some p) (hf : fs p = true) :
    fileCleanup fs r =
      ((fun q => if q = p then false else fs q), {r with audiopipe := none}) := by
  simp only [fileCleanup, h, hf]
  simp

theorem markOffline_of_none {fs : String → Bool} {r : VMRecord}
    (h : r.audiopipe = none) :
    markOffline fs r =
      (fs, { r with audiothrd := false, pid := none, state := "offline" }) := by
  unfold markOffline
  rw [fileCleanup_none h]

theorem markOffline_of_gone {fs : String → Bool} {r : VMRecord} {p : String}
    (h : r.audiopipe = some p) (hf : fs p = false) :
    markOffline fs r =
      (fs, { r with audiothrd := false, pid := none, state := "offline" }) := by
  unfold markOffline
  rw [fileCleanup_gone h hf]

theorem markOffline_of_present {fs : String → Bool} {r : VMRecord} {p : String}
    (h : r.audiopipe = some p) (hf : fs p = true) :
    markOffline fs r =
      ((fun q => if q = p then false else fs q),
        { r with
          audiopipe := none
          audiothrd := false
          pid := none
          state := "offline" }) := by
  unfold markOffline
  rw [fileCleanup_present h hf]

/-- C4 (amended): the offline transition clears the pid, clears the
audio-thread flag and sets the state offline; it deletes the audio pipe
file when present and tolerates its absence; the audio pipe path field is
cleared exactly when the deletion succeeded (a stale path whose file is
already gone is kept); and the transition is idempotent. -/
theorem mark_offline_spec :
    ∀ (fs : String → Bool) (r : VMRecord),
      ((markOffline fs r).2.pid = none ∧
       (markOffline fs r).2.state = "offline" ∧
       (markOffline fs r).2.audiothrd = false) ∧
      (∀ p, r.audiopipe = some p →
        (markOffline fs r).1 p = false ∧
        (fs p = true → (markOffline fs r).2.audiopipe = none) ∧
        (fs p = false → (markOffline fs r).2.audiopipe = some p)) ∧
      (r.audiopipe = none →
        (markOffline fs r).2.audiopipe = none ∧ (markOffline fs r).1 = fs) ∧
      markOffline (markOffline fs r).1 (markOffline fs r).2 =
        markOffline fs r := by
  intro fs r
  cases hap : r.audiopipe with
  | none =>
    rw [markOffline_of_none hap]
    refine ⟨⟨rfl, rfl, rfl⟩, ?_, fun _ => ⟨hap, rfl⟩, ?_⟩
    · intro p hp
      simp at hp
    · rw [markOffline_of_none (by simp [hap])]
  | some p =>
    cases hfp : fs p with
    | true =>
      rw [markOffline_of_present hap hfp]
      refine ⟨⟨rfl, rfl, rfl⟩, ?_, ?_, ?_⟩
      · intro q hq
        have hqp : q = p := (Option.some.inj hq).symm
        subst hqp
        exact ⟨by simp, fun _ => rfl, fun hc => by rw [hfp] at hc; cases hc⟩
      · intro hnone
        simp at hnone
      · rw [markOffline_of_none (by simp)]
    | false =>
      rw [markOffline_of_gone hap hfp]
      refine ⟨⟨rfl, rfl, rfl⟩, ?_, ?_, ?_⟩
      · intro q hq
        have hqp : q = p := (Option.some.inj hq).symm
        subst hqp
        exact ⟨hfp, (fun hc => by rw [hfp] at hc; cases hc), fun _ => hap⟩
      · intro hnone
        simp at hnone
      · rw [markOffline_of_gone (p := p) (by simp [hap]) hfp]

/-- Witness for C4 (amended): at an existing pipe file the transition
clears the pid and the pipe path, by the theorem applied at concrete
inputs. -/
theorem mark_offline_spec_witness :
    (markOffline (fun _ => true) rec0).2.pid = none ∧
    (markOffline (fun _ => true) rec0).2.audiopipe = none :=
  ⟨(mark_offline_spec (fun _ => true) rec0).1.1,
    ((mark_offline_spec (fun _ => true) rec0).2.1 "/tmp/pipe1.pipe" rfl).2.1 rfl⟩

/-! Lifecycle guards (C5). -/

theorem stateCheck_online_alive {fs : String → Bool} {r : VMRecord}
    (h : r.state ≠ "offline") :
    stateCheck true fs r =
      (fs, if r.audiothrd = false then { r with audiothrd := true } else r) := by
  unfold stateCheck
  rw [if_pos ⟨h, rfl⟩]

theorem stateCheck_offline {alive : Bool} {fs : String → Bool} {r : VMRecord}
    (h : r.state = "offline") :
    stateCheck alive fs r = markOffline fs r := by
  unfold stateCheck
  rw [if_neg (fun hc => hc.1 h)]

theorem markOffline_canonical {fs : String → Bool} {r : VMRecord}
    (hs : r.state = "offline") (hp : r.pid = none) (ht : r.audiothrd = false)
    (ha : ∀ p, r.audiopipe = some p → fs p = false) :
    markOffline fs r = (fs, r) := by
  cases hap : r.audiopipe with
  | none =>
    rw [markOffline_of_none hap]
    cases r
    simp_all
  | some p =>
    rw [markOffline_of_gone hap (ha p hap)]
    cases r
    simp_all

/-- Equality of all record fields except the four runtime fields (pid,
audiopipe, audiothrd, state) that the offline transition touches. -/
def configEq (a b : VMRecord) : Prop :=
  a.id = b.id ∧ a.ports = b.ports ∧ a.memory = b.memory ∧ a.cores = b.cores ∧
  a.cpu = b.cpu ∧ a.machine = b.machine ∧ a.vga = b.vga ∧ a.sound = b.sound ∧
  a.bootorder = b.bootorder ∧ a.network = b.network ∧ a.scsi = b.scsi ∧
  a.rtc = b.rtc ∧ a.floppy = b.floppy ∧ a.numa = b.numa ∧
  a.cdroms = b.cdroms ∧ a.drives = b.drives ∧ a.forwarding = b.forwarding

theorem markOffline_config (fs : String → Bool) (r : VMRecord) :
    configEq (markOffline fs r).2 r := by
  cases hap : r.audiopipe with
  | none =>
    rw [markOffline_of_none hap]
    simp [configEq]
  | some p =>
    cases hfp : fs p with
    | true =>
      rw [markOffline_of_present hap hfp]
      simp [configEq]
    | false =>
      rw [markOffline_of_gone hap hfp]
      simp [configEq]

/-- Counterexample for C5 as stated: a reachable offline record that
still carries an audio pipe path whose fifo exists on disk (the state a
failed `start` leaves behind after `os.mkfifo`).  Calling `stop` does
raise invalid-state-change, but the probe preceding the guard re-runs the
offline transition: the unlink succeeds and the audiopipe field is
cleared, so the record is NOT left unchanged. -/
theorem stop_offline_clears_stale_pipe :
    rec0.state = "offline" ∧ rec0.audiopipe = some "/tmp/pipe1.pipe" ∧
    (stop true (fun p => p == "/tmp/pipe1.pipe") rec0).2.2 =
      .error (.invalidStateChange "Function requires VM to be online") ∧
    (stop true (fun p => p == "/tmp/pipe1.pipe") rec0).2.1.audiopipe = none ∧
    ¬ (stop true (fun p => p == "/tmp/pipe1.pipe") rec0).2.1 = rec0 := by
  decide

/-- C5 (amended): starting a record whose probed state is online fails
with invalid-state-change without launching (the launched vector lives
only in an ok outcome) and keeps the pid and online state.  Stopping a
record whose state is offline fails with invalid-state-change, but only
after the state probe has re-run the offline transition: the resulting
record and filesystem are exactly those of `__mark_offline` (a lingering
pipe file is deleted and the audiopipe field then cleared), the pid,
audio-thread flag and state hold their canonical offline values, every
other field keeps its prior value, and a record already in canonical
offline shape (pid cleared, flag cleared, no lingering pipe file) is left
entirely unchanged. -/
theorem start_stop_state_guards :
    ∀ (qemu : String) (env : CompileEnv) (freshPipe : String) (newPid : Int)
      (fs : String → Bool) (r : VMRecord),
      (r.state = "online" →
        (start qemu env freshPipe newPid true fs r).2.2 =
          .error (.invalidStateChange "Invalid state for start()!") ∧
        (start qemu env freshPipe newPid true fs r).2.1.pid = r.pid ∧
        (start qemu env freshPipe newPid true fs r).2.1.state = "online") ∧
      (∀ alive, r.state = "offline" →
        (stop alive fs r).2.2 =
          .error (.invalidStateChange "Function requires VM to be online") ∧
        (stop alive fs r).1 = (markOffline fs r).1 ∧
        (stop alive fs r).2.1 = (markOffline fs r).2 ∧
        (stop alive fs r).2.1.pid = none ∧
        (stop alive fs r).2.1.state = "offline" ∧
        (stop alive fs r).2.1.audiothrd = false ∧
        configEq (stop alive fs r).2.1 r ∧
        (r.pid = none → r.audiothrd = false →
          (∀ p, r.audiopipe = some p → fs p = false) →
          (stop alive fs r).2.1 = r ∧ (stop alive fs r).1 = fs)) := by
  intro qemu env freshPipe newPid fs r
  constructor
  · intro hstate
    have hne : r.state ≠ "offline" := by rw [hstate]; decide
    unfold start
    rw [stateCheck_online_alive hne]
    by_cases ht : r.audiothrd = false
    · rw [if_pos ht, if_neg (fun hc => hne hc)]
      exact ⟨rfl, rfl, hstate⟩
    · rw [if_neg ht, if_neg (fun hc => hne hc)]
      exact ⟨rfl, rfl, hstate⟩
  · intro alive hs
    have hso : (markOffline fs r).2.state = "offline" := rfl
    unfold stop
    rw [stateCheck_offline hs, if_pos hso]
    refine ⟨rfl, rfl, rfl, rfl, rfl, rfl, markOffline_config fs r, ?_⟩
    intro hp ht ha
    rw [markOffline_canonical hs hp ht ha]
    exact ⟨rfl, rfl⟩

/-- Witness for C5 (amended): a concrete online record refuses `start`, a
concrete canonical offline record refuses `stop` and is returned
unchanged, by the theorem applied at those records. -/
theorem start_stop_state_guards_witness :
    (start "qemu-kvm" env0 "/tmp/p2.pipe" 9 true (fun _ => false)
      { rec0 with state := "online", pid := some 7 }).2.2 =
      .error (.invalidStateChange "Invalid state for start()!") ∧
    (stop true (fun _ => false) rec0).2.2 =
      .error (.invalidStateChange "Function requires VM to be online") ∧
    (stop true (fun _ => false) rec0).2.1 = rec0 :=
  ⟨((start_stop_state_guards "qemu-kvm" env0 "/tmp/p2.pipe" 9 (fun _ => false)
      { rec0 with state := "online", pid := some 7 }).1 rfl).1,
   ((start_stop_state_guards "qemu-kvm" env0 "/tmp/p2.pipe" 9 (fun _ => false)
      rec0).2 true rfl).1,
   (((start_stop_state_guards "qemu-kvm" env0 "/tmp/p2.pipe" 9 (fun _ => false)
      rec0).2 true rfl).2.2.2.2.2.2.2 rfl rfl (fun _ _ => rfl)).1⟩

/-! Property setter (C6, C10). -/

/-- C6: with the record offline, a memory value below the 8 MiB floor or
a core count above the host's CPU count or below 1 makes `set_properties`
fail with an invalid-argument error.  In this embedding the record is
returned only by a successful call, mirroring that the source performs
every assignment after the whole validation chain has passed, so a failed
call leaves every configuration field at its prior value. -/
theorem set_properties_bad_memory_or_cores :
    ∀ (hostCpus : Int) (isfile : String → Bool) (r : VMRecord) (p : Props),
      r.state = "offline" →
      (p.memory < 8388608 ∨ p.cores > hostCpus ∨ p.cores < 1) →
      ∃ m, setProperties hostCpus isfile r p = .error (.invalidArgument m) := by
  intro hostCpus isfile r p hs hbad
  unfold setProperties
  rw [if_neg (by simp [hs])]
  by_cases hm : p.memory < 8388608
  · exact ⟨_, by rw [if_pos hm]⟩
  · rw [if_neg hm]
    have hc : p.cores > hostCpus ∨ p.cores < 1 := by
      rcases hbad with h | h | h
      · exact absurd h hm
      · exact Or.inl h
      · exact Or.inr h
    exact ⟨_, by rw [if_pos hc]⟩

/-- Witness for C6: a memory value of 1 byte is rejected on a concrete
offline record, by the theorem applied there. -/
theorem set_properties_bad_memory_or_cores_witness :
    ∃ m, setProperties 4 (fun _ => true) rec0
      ⟨1, 1, "host", "pc", "std", "hda", "cdn", "rtl8139", none,
        "lsi53c895a", false, "utc"⟩ = .error (.invalidArgument m) :=
  set_properties_bad_memory_or_cores 4 (fun _ => true) rec0
    ⟨1, 1, "host", "pc", "std", "hda", "cdn", "rtl8139", none,
      "lsi53c895a", false, "utc"⟩ rfl (Or.inl (by decide))

/-- C10: when the floppy value is present and names an existing file, the
validation elif-chain ends at the floppy branch, so the rtc and cpu
values are never checked: `set_properties` succeeds and commits any rtc
and cpu strings, including values outside the supported presets. -/
theorem set_properties_floppy_skips_rtc_cpu :
    ∀ (hostCpus : Int) (isfile : String → Bool) (r : VMRecord) (p : Props)
      (f : String),
      r.state = "offline" → p.floppy = some f → isfile f = true →
      ¬ p.memory < 8388608 → ¬ (p.cores > hostCpus ∨ p.cores < 1) →
      p.vga ∈ vgaKeys → p.machine ∈ machineKeys → p.sound ∈ soundKeys →
      p.network ∈ networkKeys → p.scsi ∈ scsiKeys →
      p.bootorder.toList.all (fun c => c ∈ ['a', 'b', 'c', 'd', 'n', 'p']) = true →
      setProperties hostCpus isfile r p = .ok (applyProps r p) ∧
      (applyProps r p).rtc = p.rtc ∧ (applyProps r p).cpu = p.cpu := by
  intro hostCpus isfile r p f hs hf hisf hmem hcores hv hm hsnd hn hscsi hbo
  refine ⟨?_, rfl, rfl⟩
  unfold setProperties
  rw [if_neg (by simp [hs]), if_neg hmem, if_neg hcores,
    if_neg (not_not_intro hv), if_neg (not_not_intro hm),
    if_neg (not_not_intro hsnd), if_neg (not_not_intro hn),
    if_neg (not_not_intro hscsi), if_neg (not_not_intro hbo)]
  simp only [hf]
  rw [if_neg (by simp [hisf])]

/-- Witness for C10: a property set carrying an existing floppy plus the
unsupported rtc value `garbage` and cpu value `bogus` is committed
verbatim, by the theorem applied at concrete inputs. -/
theorem set_properties_floppy_skips_rtc_cpu_witness :
    setProperties 4 (fun _ => true) rec0
      ⟨134217728, 1, "bogus", "pc", "std", "hda", "cdn", "rtl8139",
        some "/floppy.img", "lsi53c895a", false, "garbage"⟩ =
      .ok (applyProps rec0
        ⟨134217728, 1, "bogus", "pc", "std", "hda", "cdn", "rtl8139",
          some "/floppy.img", "lsi53c895a", false, "garbage"⟩) ∧
    (applyProps rec0
      ⟨134217728, 1, "bogus", "pc", "std", "hda", "cdn", "rtl8139",
        some "/floppy.img", "lsi53c895a", false, "garbage"⟩).rtc = "garbage" ∧
    (applyProps rec0
      ⟨134217728, 1, "bogus", "pc", "std", "hda", "cdn", "rtl8139",
        some "/floppy.img", "lsi53c895a", false, "garbage"⟩).cpu = "bogus" :=
  set_properties_floppy_skips_rtc_cpu 4 (fun _ => true) rec0
    ⟨134217728, 1, "bogus", "pc", "std", "hda", "cdn", "rtl8139",
      some "/floppy.img", "lsi53c895a", false, "garbage"⟩
    "/floppy.img" rfl rfl rfl (by decide) (by decide) (by decide)
    (by decide) (by decide) (by decide) (by decide) (by decide)

/-! Port forwarding (C7, C9). -/

theorem digitChar_big {n : Nat} (h : 16 ≤ n) : Nat.digitChar n = '*' := by
  have hne : ∀ m : Nat, m < 16 → ¬ n = m := fun m hm => by omega
  simp only [Nat.digitChar,
    if_neg (hne 0 (by decide)), if_neg (hne 1 (by decide)),
    if_neg (hne 2 (by decide)), if_neg (hne 3 (by decide)),
    if_neg (hne 4 (by decide)), if_neg (hne 5 (by decide)),
    if_neg (hne 6 (by decide)), if_neg (hne 7 (by decide)),
    if_neg (hne 8 (by decide)), if_neg (hne 9 (by decide)),
    if_neg (hne 10 (by decide)), if_neg (hne 11 (by decide)),
    if_neg (hne 12 (by decide)), if_neg (hne 13 (by decide)),
    if_neg (hne 14 (by decide)), if_neg (hne 15 (by decide))]

theorem digitChar_ne_dot (n : Nat) : Nat.digitChar n ≠ '.' := by
  rcases Nat.lt_or_ge n 16 with h | h
  · interval_cases n <;> decide
  · rw [digitChar_big h]
    decide

theorem toDigitsCore_ne_dot :
    ∀ (fuel n : Nat) (ds : List Char), (∀ c ∈ ds, c ≠ '.') →
      ∀ c ∈ Nat.toDigitsCore 10 fuel n ds, c ≠ '.' := by
  intro fuel
  induction fuel with
  | zero =>
    intro n ds hds
    unfold Nat.toDigitsCore
    exact hds
  | succ f ih =>
    intro n ds hds
    unfold Nat.toDigitsCore
    show ∀ c ∈ (if n / 10 = 0 then Nat.digitChar (n % 10) :: ds
      else Nat.toDigitsCore 10 f (n / 10) (Nat.digitChar (n % 10) :: ds)), c ≠ '.'
    have hcons : ∀ c ∈ Nat.digitChar (n % 10) :: ds, c ≠ '.' := by
      intro c hc
      rcases List.mem_cons.mp hc with rfl | hm
      · exact digitChar_ne_dot _
      · exact hds c hm
    split
    · exact hcons
    · exact ih (n / 10) _ hcons

theorem natRepr_ne_dot (n : Nat) : ∀ c ∈ (Nat.repr n).toList, c ≠ '.' := by
  intro c hc
  exact toDigitsCore_ne_dot (n + 1) n [] (by simp) c hc

theorem intStr_ne_dot (n : Int) : ∀ c ∈ (toString n).toList, c ≠ '.' := by
  cases n with
  | ofNat m => exact natRepr_ne_dot m
  | negSucc m =>
    intro c hc
    have hc2 : c ∈ ("-" ++ Nat.repr (m + 1)).toList := hc
    rw [String.toList, String.data_append] at hc2
    rcases List.mem_append.mp hc2 with hm | hm
    · rcases List.mem_singleton.mp hm with rfl
      decide
    · exact natRepr_ne_dot (m + 1) c hm

theorem contains_dot_eq_false {l : List Char} (h : ∀ c ∈ l, c ≠ '.') :
    l.contains '.' = false := by
  cases hc : l.contains '.'
  · rfl
  · exact absurd (List.mem_of_elem_eq_true hc) (fun hm => h _ hm rfl)

theorem validate_port_int (n : Int) :
    validate_port (.vint n) = true ↔ 1 ≤ n ∧ n ≤ 65535 := by
  unfold validate_port
  rw [show pyStr (.vint n) = toString n from rfl,
    contains_dot_eq_false (intStr_ne_dot n)]
  show (if False = True then false else
    match pyToInt (.vint n) with
    | none => false
    | some n => if n > 65535 then false else if n < 1 then false else true) = true ↔ _
  constructor
  · intro h
    simp only [pyToInt] at h
    by_cases h1 : n > 65535
    · simp [h1] at h
    by_cases h2 : n < 1
    · simp [h1, h2] at h
    · omega
  · intro ⟨ha, hb⟩
    simp only [pyToInt]
    rw [if_neg (by decide), if_neg (by omega), if_neg (by omega)]

/-- Counterexample for C7 as stated: two different valid forwarding
tuples whose CRC32 fingerprints — and hence forwarding-rule ids —
coincide, so differing tuples do not always yield different ids. -/
theorem fwd_id_collision :
    fwdId "tcp" "0.0.0.0" (.vint 2361) (.vint 21) =
      fwdId "tcp" "0.0.0.0" (.vint 3400) (.vint 100) ∧
    ¬ ((2361 : Int) = 3400 ∧ (21 : Int) = 100) ∧
    validate_port (.vint 2361) = true ∧ validate_port (.vint 21) = true ∧
    validate_port (.vint 3400) = true ∧ validate_port (.vint 100) = true := by
  refine ⟨by decide, by decide, by decide, by decide, by decide, by decide⟩

/-- C7 (amended): the forwarding-rule id is a deterministic function of
the lowercased protocol, external ip and stringified ports (`fwdId`);
adding a tuple whose id already appears in the record's forwarding list
is a no-op that still returns the id; adding one whose id is fresh
appends exactly the one new rule.  Distinct tuples may collide on their
CRC32 id (see the counterexample), in which case the later tuple is
silently treated as a duplicate. -/
theorem forward_port_fingerprint_dedup :
    ∀ (r : VMRecord) (ep ip : PyVal) (proto extip : String),
      r.state = "offline" →
      validate_ip extip = true → validate_port ep = true →
      validate_port ip = true → pyLower proto ∈ ["tcp", "udp"] →
      (fwdId (pyLower proto) extip ep ip ∈ r.forwarding.map (fun x => x.id) →
        forwardPort r ep ip proto extip =
          .ok (r, fwdId (pyLower proto) extip ep ip)) ∧
      (¬ fwdId (pyLower proto) extip ep ip ∈ r.forwarding.map (fun x => x.id) →
        forwardPort r ep ip proto extip = .ok
          ({ r with forwarding := r.forwarding ++
            [⟨fwdId (pyLower proto) extip ep ip, pyLower proto, extip,
              pyStr ep, pyStr ip⟩] }, fwdId (pyLower proto) extip ep ip)) := by
  intro r ep ip proto extip hs h1 h2 h3 h4
  simp only [forwardPort]
  rw [if_neg (by simp [hs]), if_neg (by simp [h1]), if_neg (by simp [h2]),
    if_neg (by simp [h3]), if_neg (not_not_intro h4)]
  constructor
  · intro hd
    rw [if_pos hd]
  · intro hd
    rw [if_neg hd]

/-- Witness for C7 (amended): adding a fresh tcp rule to an empty
forwarding list appends exactly that rule and returns its id, by the
theorem applied at concrete inputs. -/
theorem forward_port_fingerprint_dedup_witness :
    forwardPort rec0 (.vint 80) (.vint 8080) "tcp" "0.0.0.0" =
      .ok ({ rec0 with forwarding := rec0.forwarding ++
        [⟨fwdId (pyLower "tcp") "0.0.0.0" (.vint 80) (.vint 8080),
          pyLower "tcp", "0.0.0.0", pyStr (.vint 80), pyStr (.vint 8080)⟩] },
        fwdId (pyLower "tcp") "0.0.0.0" (.vint 80) (.vint 8080)) :=
  (forward_port_fingerprint_dedup rec0 (.vint 80) (.vint 8080) "tcp" "0.0.0.0"
    rfl (by decide) (by decide) (by decide) (by decide)).2 (by decide)

/-- Counterexample for C9 as stated: the protocol is lowercased before
the tcp/udp check, so the literal `TCP` — neither exactly `tcp` nor
`udp` — is accepted rather than rejected. -/
theorem forward_port_accepts_uppercase_protocol :
    (forwardPort rec0 (.vint 80) (.vint 8080) "TCP" "0.0.0.0").isOk = true ∧
    ¬ ("TCP" = "tcp" ∨ "TCP" = "udp") := by
  refine ⟨by decide, by decide⟩

/-- C9 (amended): `forward_port` accepts a rule exactly when the external
IP parses as an IPv4 or IPv6 literal, both ports pass `__validate_port`,
and the protocol lowercased is `tcp` or `udp`; any violation raises an
invalid-argument error (the Except embedding returns the updated record
only on success, so a failed call leaves the forwarding list unchanged).
For an integer port, `__validate_port` accepts exactly the values in
[1, 65535]. -/
theorem forward_port_validation :
    ∀ (r : VMRecord) (ep ip : PyVal) (proto extip : String),
      r.state = "offline" →
      ((validate_ip extip = true ∧ validate_port ep = true ∧
        validate_port ip = true ∧ pyLower proto ∈ ["tcp", "udp"]) →
        (forwardPort r ep ip proto extip).isOk = true) ∧
      (¬ (validate_ip extip = true ∧ validate_port ep = true ∧
          validate_port ip = true ∧ pyLower proto ∈ ["tcp", "udp"]) →
        ∃ m, forwardPort r ep ip proto extip = .error (.invalidArgument m)) ∧
      (∀ n : Int, validate_port (.vint n) = true ↔ 1 ≤ n ∧ n ≤ 65535) := by
  intro r ep ip proto extip hs
  refine ⟨?_, ?_, validate_port_int⟩
  · intro ⟨h1, h2, h3, h4⟩
    simp only [forwardPort]
    rw [if_neg (by simp [hs]), if_neg (by simp [h1]), if_neg (by simp [h2]),
      if_neg (by simp [h3]), if_neg (not_not_intro h4)]
    split
    · rfl
    · rfl
  · intro hnot
    simp only [forwardPort]
    rw [if_neg (by simp [hs])]
    by_cases h1 : validate_ip extip = true
    case neg => exact ⟨_, by rw [if_pos (by simp [h1])]⟩
    rw [if_neg (by simp [h1])]
    by_cases h2 : validate_port ep = true
    case neg => exact ⟨_, by rw [if_pos (by simp [h2])]⟩
    rw [if_neg (by simp [h2])]
    by_cases h3 : validate_port ip = true
    case neg => exact ⟨_, by rw [if_pos (by simp [h3])]⟩
    rw [if_neg (by simp [h3])]
    by_cases h4 : pyLower proto ∈ ["tcp", "udp"]
    case neg => exact ⟨_, by rw [if_pos h4]⟩
    exact absurd ⟨h1, h2, h3, h4⟩ hnot

/-- Witness for C9 (amended): a fully valid udp rule is accepted on a
concrete record, by the theorem applied there. -/
theorem forward_port_validation_witness :
    (forwardPort rec0 (.vint 53) (.vint 53) "udp" "0.0.0.0").isOk = true :=
  ((forward_port_validation rec0 (.vint 53) (.vint 53) "udp" "0.0.0.0"
    rfl).1 ⟨by decide, by decide, by decide, by decide⟩)

end Vertibird
